import Mathlib

/-!
Shallow embedding of the Lumos language core (lexer, parser, evaluator,
IR optimizer) and of the engine entry point, together with theorems about
the behaviours the specification describes.

Modelling conventions:
* JavaScript numbers are modelled by `JSNum`: an exact rational together
  with `NaN` and signed infinity.  IEEE-754 rounding is not modelled; no
  theorem below depends on rounding.
* JavaScript objects used as scopes are modelled by explicit frames in a
  heap, with the prototype chain of a frame given by its `parent` index and
  the implicit tail `Object.prototype` modelled by the fixed key set
  `objectProtoKeys` (the `in` operator and property reads consult it).
* Host exceptions are modelled by an explicit error result; the evaluator's
  break/continue/return signals are error constructors, as in the source
  they are thrown `Error` subclasses.
* All recursion is structural (on fuel counters or on lists), so every
  definition is executable and concrete runs reduce by `rfl`/`decide`.
-/

namespace Lumos

/-- JavaScript number values: exact rationals plus `NaN` and signed infinity. -/
inductive JSNum where
  | num (q : ℚ)
  | nan
  | inf (pos : Bool)
deriving DecidableEq, Repr

namespace JSNum

/-- JS `+` on numbers. -/
def jsAdd : JSNum → JSNum → JSNum
  | num a, num b => num (a + b)
  | nan, _ => nan
  | _, nan => nan
  | inf p, inf q => if p = q then inf p else nan
  | inf p, num _ => inf p
  | num _, inf q => inf q

/-- JS `-` on numbers. -/
def jsSub : JSNum → JSNum → JSNum
  | num a, num b => num (a - b)
  | nan, _ => nan
  | _, nan => nan
  | inf p, inf q => if p = q then nan else inf p
  | inf p, num _ => inf p
  | num _, inf q => inf (!q)

/-- JS `*` on numbers. -/
def jsMul : JSNum → JSNum → JSNum
  | num a, num b => num (a * b)
  | nan, _ => nan
  | _, nan => nan
  | inf p, inf q => inf (p = q)
  | inf p, num b => if b = 0 then nan else inf (p = decide (0 < b))
  | num a, inf q => if a = 0 then nan else inf (q = decide (0 < a))

/-- JS `/` on numbers (division by zero gives an infinity or `NaN`). -/
def jsDiv : JSNum → JSNum → JSNum
  | num a, num b =>
      if b = 0 then (if a = 0 then nan else inf (decide (0 < a)))
      else num (a / b)
  | nan, _ => nan
  | _, nan => nan
  | inf _, inf _ => nan
  | inf p, num b => inf (p = decide (0 ≤ b))
  | num _, inf _ => num 0

/-- Truncation toward zero, as JS `%` uses for its implicit quotient. -/
def truncQ (q : ℚ) : ℤ := if 0 ≤ q then ⌊q⌋ else ⌈q⌉

/-- JS `%` on numbers (sign follows the dividend). -/
def jsMod : JSNum → JSNum → JSNum
  | num a, num b =>
      if b = 0 then nan else num (a - b * (truncQ (a / b) : ℚ))
  | nan, _ => nan
  | _, nan => nan
  | inf _, _ => nan
  | num a, inf _ => num a

/-- JS `<=` on numbers (false whenever `NaN` is involved). -/
def jsLe : JSNum → JSNum → Bool
  | num a, num b => decide (a ≤ b)
  | nan, _ => false
  | _, nan => false
  | inf p, inf q => !p || q
  | inf p, num _ => !p
  | num _, inf q => q

/-- JS `<` on numbers. -/
def jsLt : JSNum → JSNum → Bool
  | num a, num b => decide (a < b)
  | nan, _ => false
  | _, nan => false
  | inf p, inf q => !p && q
  | inf p, num _ => !p
  | num _, inf q => q

/-- JS `==` restricted to two numbers (`NaN` equals nothing). -/
def jsEq : JSNum → JSNum → Bool
  | num a, num b => decide (a = b)
  | nan, _ => false
  | _, nan => false
  | inf p, inf q => p = q
  | _, _ => false

/-- Rendering of a number as JS would in a template string; exact for
integers, best effort for the remaining (never exercised) cases. -/
def toByteString : JSNum → String
  | num q => if q.den = 1 then toString q.num else toString q
  | nan => "NaN"
  | inf true => "Infinity"
  | inf false => "-Infinity"

end JSNum

/-! ## IR instructions and the optimizer (src/compiler/core/compiler.js) -/

/-- An IR operand: `null`, a number literal, or a symbolic name. -/
inductive Arg where
  | anull
  | anum (n : JSNum)
  | astr (s : String)
deriving DecidableEq, Repr

/-- JS truthiness of an operand (`null` and the empty string are falsy,
every number placed in `arg1`/`arg2` by the generator is used via
`typeof === 'string'` guards, so its truthiness is irrelevant there). -/
def Arg.truthy : Arg → Bool
  | Arg.anull => false
  | Arg.anum n => !(n = JSNum.num 0) && !(n = JSNum.nan)
  | Arg.astr s => !(s = "")

/-- `inst.argN && typeof inst.argN === 'string'`: a truthy string. -/
def Arg.truthyString : Arg → Option String
  | Arg.astr s => if s = "" then none else some s
  | _ => none

/-- A flat IR instruction `{op, arg1, arg2, result}`. -/
structure Instr where
  op : String
  arg1 : Arg
  arg2 : Arg
  result : Option String
deriving DecidableEq, Repr

/-- `if (inst.result)`: the result field is a truthy (nonempty) string. -/
def resultTruthy : Option String → Option String
  | some s => if s = "" then none else some s
  | none => none

/-- The arithmetic opcodes recognised by the optimizer passes. -/
def arithOps : List String := ["+", "-", "*", "/", "%"]

/-- The `switch (inst.op)` of `constantFolding`. -/
def foldOp (op : String) (a b : JSNum) : JSNum :=
  if op = "+" then JSNum.jsAdd a b
  else if op = "-" then JSNum.jsSub a b
  else if op = "*" then JSNum.jsMul a b
  else if op = "/" then JSNum.jsDiv a b
  else JSNum.jsMod a b

/-- `Optimizer.constantFolding`: one map over the instruction list; an
arithmetic instruction whose operands are both number literals becomes an
`assign` of the computed literal. -/
def constantFolding (instructions : List Instr) : List Instr :=
  instructions.map (fun inst =>
    if inst.op ∈ arithOps then
      match inst.arg1, inst.arg2 with
      | Arg.anum a, Arg.anum b =>
          { op := "assign", arg1 := Arg.anum (foldOp inst.op a b),
            arg2 := Arg.anull, result := inst.result }
      | _, _ => inst
    else inst)

/-- The `labels` set of `deadCodeElimination`: for every `label`, `goto`
or `if_false` instruction, its truthy `result` and truthy-string `arg1`. -/
def dceLabels (instructions : List Instr) : List String :=
  instructions.foldl (fun acc inst =>
    if inst.op = "label" ∨ inst.op = "goto" ∨ inst.op = "if_false" then
      let acc1 := match resultTruthy inst.result with
        | some s => acc ++ [s]
        | none => acc
      match Arg.truthyString inst.arg1 with
      | some s => acc1 ++ [s]
      | none => acc1
    else acc) []

/-- The `used` set of `deadCodeElimination`: one backward pass adding every
instruction's truthy `result` and its truthy-string `arg1`/`arg2`. -/
def dceUsed (instructions : List Instr) : List String :=
  instructions.reverse.foldl (fun acc inst =>
    let acc1 := match resultTruthy inst.result with
      | some s => acc ++ [s]
      | none => acc
    let acc2 := match Arg.truthyString inst.arg1 with
      | some s => acc1 ++ [s]
      | none => acc1
    match Arg.truthyString inst.arg2 with
    | some s => acc2 ++ [s]
    | none => acc2) []

/-- `Optimizer.deadCodeElimination`: keep a `label` iff its `arg1` is in
`labels`; keep any instruction without a truthy result; otherwise keep iff
the result is in `used`. -/
def deadCodeElimination (instructions : List Instr) : List Instr :=
  let labels := dceLabels instructions
  let used := dceUsed instructions
  instructions.filter (fun inst =>
    if inst.op = "label" then
      match inst.arg1 with
      | Arg.astr s => decide (s ∈ labels)
      | _ => false
    else
      match resultTruthy inst.result with
      | none => true
      | some s => decide (s ∈ used))

/-- The memo key `` `${inst.op}:${inst.arg1}:${inst.arg2}` `` of
`commonSubexpressionElimination`. -/
def cseKey (inst : Instr) : String :=
  let argText : Arg → String := fun a =>
    match a with
    | Arg.anull => "null"
    | Arg.anum n => JSNum.toByteString n
    | Arg.astr s => s
  inst.op ++ ":" ++ argText inst.arg1 ++ ":" ++ argText inst.arg2

/-- The forward pass of `Optimizer.commonSubexpressionElimination` with its
memo map of expression keys to earlier results. -/
def cseGo : List (String × Option String) → List Instr → List Instr
  | _, [] => []
  | seen, inst :: rest =>
      if inst.op ∈ arithOps then
        let key := cseKey inst
        match seen.lookup key with
        | some earlier =>
            let earlierArg := match earlier with
              | some s => Arg.astr s
              | none => Arg.anull
            { op := "assign", arg1 := earlierArg, arg2 := Arg.anull,
              result := inst.result } :: cseGo seen rest
        | none => inst :: cseGo ((key, inst.result) :: seen) rest
      else inst :: cseGo seen rest

/-- `Optimizer.commonSubexpressionElimination`. -/
def commonSubexpressionElimination (instructions : List Instr) : List Instr :=
  cseGo [] instructions

/-- `Optimizer.optimize`: the three passes in their fixed order. -/
def optimize (instructions : List Instr) : List Instr :=
  commonSubexpressionElimination (deadCodeElimination (constantFolding instructions))

/-! ## Lexer (src/core/lexer.js)

The input is a list of characters; `position` is an index into it.  Each
scanning loop of the source is modelled by a structural recursion over the
remaining input.  Besides the token list the embedding records one `Piece`
per token and per discarded whitespace/comment run, carrying the values of
`this.position` at its start and end; these are the token boundaries the
reconstruction property speaks about. -/

/-- JS `/\s/.test(c)` restricted to the ASCII whitespace characters. -/
def isSpaceJS (c : Char) : Bool :=
  c = ' ' || c = '\t' || c = '\n' || c = '\r' || c = '\x0b' || c = '\x0c'

/-- `Lexer.isLetter`: `/[a-zA-Z_]/`. -/
def isLetterJS (c : Char) : Bool :=
  ('a' ≤ c && c ≤ 'z') || ('A' ≤ c && c ≤ 'Z') || c = '_'

/-- `Lexer.isDigit`: `/[0-9]/`. -/
def isDigitJS (c : Char) : Bool := '0' ≤ c && c ≤ '9'

/-- `Lexer.isAlphaNumeric`. -/
def isAlphaNumericJS (c : Char) : Bool := isLetterJS c || isDigitJS c

/-- Length of the longest prefix whose characters all satisfy `p`: the
number of `advance()` calls a `while (p(this.current()))` loop makes. -/
def countWhile (p : Char → Bool) : List Char → Nat
  | [] => 0
  | c :: t => if p c then countWhile p t + 1 else 0

/-- A token value: `null` (EOF), a number, or a string. -/
inductive TValue where
  | tvNull
  | tvNum (n : JSNum)
  | tvStr (s : String)
deriving DecidableEq, Repr

/-- A `Token {type, value, line, column}`. -/
structure Token where
  type : String
  value : TValue
  line : Nat
  column : Nat
deriving DecidableEq, Repr

/-- The `advance()` line/column update for one character. -/
def advLC (lc : Nat × Nat) (c : Char) : Nat × Nat :=
  if c = '\n' then (lc.1 + 1, 1) else (lc.1, lc.2 + 1)

/-- The `line`/`column` fields after consuming the first `j` characters. -/
def lcAfter (s : List Char) (j : Nat) : Nat × Nat :=
  (s.take j).foldl advLC (1, 1)

/-- The keyword list of `readIdentifierOrKeyword`. -/
def keywords : List String :=
  ["let", "const", "var", "def", "function", "return",
   "if", "else", "elsif", "elif", "while", "for", "do", "end",
   "break", "continue", "times", "to", "in", "of",
   "class", "struct", "interface", "trait", "module",
   "import", "export", "from", "as", "with",
   "try", "catch", "finally", "throw", "raise",
   "true", "false", "null", "nil", "undefined",
   "and", "or", "not", "is", "new", "delete",
   "async", "await", "yield", "lambda", "match", "case",
   "public", "private", "protected", "static", "final"]

/-- Digit run to a natural number. -/
def digitsToNat (l : List Char) : Nat :=
  l.foldl (fun acc c => acc * 10 + (c.toNat - '0'.toNat)) 0

/-- The optional `. digits` stage of `readNumber`: past the integer run
of length `n1`, consume a dot and a fraction run when a digit follows the
dot. -/
def rncFrac (rest : List Char) (n1 : Nat) : Nat :=
  match rest.drop n1 with
  | '.' :: d :: _ =>
      if isDigitJS d then n1 + 1 + countWhile isDigitJS (rest.drop (n1 + 1))
      else n1
  | _ => n1

/-- The optional exponent stage of `readNumber`: past position `n2`,
consume `e`/`E`, an optional sign and a digit run. -/
def rncExp (rest : List Char) (n2 : Nat) : Nat :=
  match rest.drop n2 with
  | e :: r3 =>
      if e = 'e' ∨ e = 'E' then
        let sgn := match r3 with
          | c :: _ => if c = '+' ∨ c = '-' then 1 else 0
          | [] => 0
        n2 + 1 + sgn + countWhile isDigitJS (r3.drop sgn)
      else n2
  | [] => n2

/-- Number of characters `readNumber` consumes from the remaining input:
a digit run, an optional `. digits` part when a digit follows the dot, and
an optional exponent part `e|E [+|-] digits`. -/
def readNumberCount (rest : List Char) : Nat :=
  rncExp rest (rncFrac rest (countWhile isDigitJS rest))

/-- `parseFloat` on the span `readNumber` consumed: JS takes the longest
numeric prefix, so a dangling exponent marker is ignored.  Exact rationals
stand in for IEEE-754 doubles. -/
def jsParseFloat (span : List Char) : JSNum :=
  let n1 := countWhile isDigitJS span
  let intPart : ℚ := (digitsToNat (span.take n1) : ℚ)
  let afterInt := span.drop n1
  let mant : ℚ × Nat :=
    match afterInt with
    | '.' :: _ =>
        let fd := countWhile isDigitJS (afterInt.drop 1)
        (intPart + (digitsToNat ((afterInt.drop 1).take fd) : ℚ) / ((10 : ℚ) ^ fd),
         n1 + 1 + fd)
    | _ => (intPart, n1)
  let afterMant := span.drop mant.2
  match afterMant with
  | e :: r3 =>
      if e = 'e' ∨ e = 'E' then
        let negExp : Bool := match r3 with
          | c :: _ => c = '-'
          | [] => false
        let sgn := match r3 with
          | c :: _ => if c = '+' ∨ c = '-' then 1 else 0
          | [] => 0
        let ed := countWhile isDigitJS (r3.drop sgn)
        if ed = 0 then JSNum.num mant.1
        else
          let ex := digitsToNat ((r3.drop sgn).take ed)
          if negExp then JSNum.num (mant.1 / ((10 : ℚ) ^ ex))
          else JSNum.num (mant.1 * ((10 : ℚ) ^ ex))
      else JSNum.num mant.1
  | [] => JSNum.num mant.1

/-- The `escapeMap` of `readString` (`escapeMap[c] || c`). -/
def escMap (c : Char) : Char :=
  if c = 'n' then '\n'
  else if c = 't' then '\t'
  else if c = 'r' then '\r'
  else c

/-- The scanning loop of `readString` on the input after the opening
quote: returns the accumulated value and the number of characters strictly
between the quotes, or `none` when the string is unterminated. -/
def strScan (quote : Char) : List Char → Option (String × Nat)
  | [] => none
  | [c] => if c = quote then some ("", 0) else none
  | c :: e :: t2 =>
      if c = quote then some ("", 0)
      else if c = '\\' then
        (strScan quote t2).map (fun r => (String.mk [escMap e] ++ r.1, r.2 + 2))
      else (strScan quote (e :: t2)).map (fun r => (String.mk [c] ++ r.1, r.2 + 1))

/-- The scanning loop of `skipBlockComment` after the opening `/*`: the
number of characters consumed, up to and including a closing `*/` or to the
end of the input (an unterminated block comment is not an error). -/
def bcCount : List Char → Nat
  | [] => 0
  | '*' :: '/' :: _ => 2
  | _ :: t => bcCount t + 1

/-- The `twoCharOps` table of `readOperator`. -/
def twoCharOps : List (String × String) :=
  [("==", "EQ"), ("!=", "NEQ"), ("<=", "LTE"), (">=", "GTE"),
   ("&&", "AND"), ("||", "OR"), ("++", "INCREMENT"), ("--", "DECREMENT"),
   ("+=", "PLUS_ASSIGN"), ("-=", "MINUS_ASSIGN"), ("*=", "MULT_ASSIGN"),
   ("/=", "DIV_ASSIGN"),
   ("=>", "ARROW"), ("->", "ARROW"), ("::", "SCOPE"), ("..", "RANGE")]

/-- The `oneCharOps` table of `readOperator`. -/
def oneCharOps : List (String × String) :=
  [("+", "PLUS"), ("-", "MINUS"), ("*", "MULT"), ("/", "DIV"), ("%", "MOD"),
   ("=", "ASSIGN"), ("<", "LT"), (">", "GT"), ("!", "NOT"),
   ("(", "LPAREN"), (")", "RPAREN"), ("\x7b", "LBRACE"), ("\x7d", "RBRACE"),
   ("[", "LBRACKET"), ("]", "RBRACKET"), (",", "COMMA"), (";", "SEMICOLON"),
   (":", "COLON"), (".", "DOT"), ("|", "PIPE"), ("&", "AMPERSAND"),
   ("^", "XOR"), ("~", "TILDE"), ("?", "QUESTION")]

/-- One piece of the input: a produced token or a discarded run
(whitespace, line comment, block comment). -/
inductive PieceKind where
  | ptok (t : Token)
  | pws
  | plc
  | pbc
deriving DecidableEq, Repr

/-- A piece together with the `this.position` values at its start and end. -/
structure Piece where
  kind : PieceKind
  start : Nat
  stop : Nat
deriving DecidableEq, Repr

/-- The token of `readIdentifierOrKeyword` for the span `[j, k)`. -/
def mkIdentToken (s : List Char) (j k : Nat) : Token :=
  let value := String.mk ((s.take k).drop j)
  let type := if value ∈ keywords then value.toUpper else "IDENTIFIER"
  { type := type, value := TValue.tvStr value,
    line := (lcAfter s j).1, column := (lcAfter s j).2 }

/-- One iteration of the `tokenize()` loop: skip whitespace, then read one
token or discard one comment, recording a piece for everything consumed,
and continue through `rec`; `none` models a thrown lex error. -/
def lexStep (s : List Char) (rec : Nat → Option (List Piece)) (i : Nat) :
    Option (List Piece) :=
  if i ≥ s.length then some []
  else
        let j := i + countWhile isSpaceJS (s.drop i)
        let ws : Piece := ⟨PieceKind.pws, i, j⟩
        if j ≥ s.length then some [ws]
        else
          match s.get? j with
          | none => none
          | some c =>
            if isLetterJS c then
              let k := j + countWhile isAlphaNumericJS (s.drop j)
              (rec k).map (fun ps =>
                ws :: ⟨PieceKind.ptok (mkIdentToken s j k), j, k⟩ :: ps)
            else if isDigitJS c then
              let k := j + readNumberCount (s.drop j)
              let tok : Token :=
                { type := "NUMBER",
                  value := TValue.tvNum (jsParseFloat ((s.take k).drop j)),
                  line := (lcAfter s j).1, column := (lcAfter s j).2 }
              (rec k).map (fun ps =>
                ws :: ⟨PieceKind.ptok tok, j, k⟩ :: ps)
            else if c = '"' ∨ c = '\'' then
              match strScan c (s.drop (j + 1)) with
              | none => none
              | some r =>
                  let k := j + r.2 + 2
                  let tok : Token :=
                    { type := "STRING", value := TValue.tvStr r.1,
                      line := (lcAfter s j).1, column := (lcAfter s j).2 }
                  (rec k).map (fun ps =>
                    ws :: ⟨PieceKind.ptok tok, j, k⟩ :: ps)
            else if c = '/' ∧ s.get? (j + 1) = some '/' then
              let k := j + countWhile (fun ch => !(ch = '\n')) (s.drop j)
              (rec k).map (fun ps => ws :: ⟨PieceKind.plc, j, k⟩ :: ps)
            else if c = '/' ∧ s.get? (j + 1) = some '*' then
              let k := j + 2 + bcCount (s.drop (j + 2))
              (rec k).map (fun ps => ws :: ⟨PieceKind.pbc, j, k⟩ :: ps)
            else
              let oneCase : Option (List Piece) :=
                match oneCharOps.lookup (String.mk [c]) with
                | some ty =>
                    let tok : Token :=
                      { type := ty, value := TValue.tvStr (String.mk [c]),
                        line := (lcAfter s j).1, column := (lcAfter s j).2 }
                    (rec (j + 1)).map (fun ps =>
                      ws :: ⟨PieceKind.ptok tok, j, j + 1⟩ :: ps)
                | none => none
              match s.get? (j + 1) with
              | some d =>
                  match twoCharOps.lookup (String.mk [c, d]) with
                  | some ty =>
                      let tok : Token :=
                        { type := ty, value := TValue.tvStr (String.mk [c, d]),
                          line := (lcAfter s j).1, column := (lcAfter s j).2 }
                      (rec (j + 2)).map (fun ps =>
                        ws :: ⟨PieceKind.ptok tok, j, j + 2⟩ :: ps)
                  | none => oneCase
              | none => oneCase

/-- The `tokenize()` loop, with fuel bounding the iteration count. -/
def lexLoop (s : List Char) : Nat → Nat → Option (List Piece)
  | 0, _ => none
  | fuel + 1, i => lexStep s (lexLoop s fuel) i

/-- The pieces of a full run of the tokenize loop from position `0`. -/
def lexPieces (s : List Char) : Option (List Piece) :=
  lexLoop s (s.length + 1) 0

/-- The tokens among a piece list, in order. -/
def tokensOf (ps : List Piece) : List Token :=
  ps.filterMap (fun p =>
    match p.kind with
    | PieceKind.ptok t => some t
    | _ => none)

/-- The EOF token `tokenize` pushes after its loop. -/
def eofToken (s : List Char) : Token :=
  { type := "EOF", value := TValue.tvNull,
    line := (lcAfter s s.length).1, column := (lcAfter s s.length).2 }

/-- `Lexer.tokenize`: the token sequence, ending in the EOF marker, or
`none` for a thrown lex error. -/
def tokenize (s : List Char) : Option (List Token) :=
  (lexPieces s).map (fun ps => tokensOf ps ++ [eofToken s])

/-- The characters of the input spanned by a piece's boundaries. -/
def pieceSlice (s : List Char) (p : Piece) : List Char :=
  (s.take p.stop).drop p.start

/-- Concatenation of the spans of all pieces, in order. -/
def piecesJoin (s : List Char) (ps : List Piece) : List Char :=
  (ps.map (pieceSlice s)).flatten

/-- Every non-token piece is discardable text: a whitespace run, or a run
beginning with `//`, or a run beginning with `/*`. -/
def gapOk (s : List Char) (p : Piece) : Prop :=
  match p.kind with
  | PieceKind.ptok _ => True
  | PieceKind.pws => ∀ c ∈ pieceSlice s p, isSpaceJS c
  | PieceKind.plc => (pieceSlice s p).take 2 = ['/', '/']
  | PieceKind.pbc => (pieceSlice s p).take 2 = ['/', '*']

/-! ## Parser (src/core/parser.js)

Single-token-lookahead recursive descent.  Every function takes the token
list, a fuel counter for its recursion, and the current `this.position`;
it returns the parsed node together with the new position, a parse error,
or a fuel marker (which a terminating concrete run never produces).  The
`class`, `import` and `try` statements are outside the modelled fragment
and parse to an explicit error. -/

/-- A literal value as stored in AST `Literal` nodes. -/
inductive LitV where
  | lnull
  | lbool (b : Bool)
  | lnum (n : JSNum)
  | lstr (s : String)
deriving DecidableEq, Repr

/-- AST nodes (`ASTNode` tagged variants). -/
inductive Node where
  | program (statements : List Node)
  | varDecl (keyword : String) (name : String) (initializer : Option Node)
  | funcDecl (name : String) (parameters : List String) (body : List Node)
  | ifStmt (condition : Node) (thenBranch : List Node)
      (elifBranches : List (Node × List Node)) (elseBranch : Option (List Node))
  | whileStmt (condition : Node) (body : List Node)
  | forStmt (iterator : String) (start : Node) (stopE : Node) (step : Node)
      (body : List Node)
  | returnStmt (value : Option Node)
  | breakStmt
  | continueStmt
  | exprStmt (expression : Node)
  | assign (target : Node) (operator : String) (value : Node)
  | binary (left : Node) (operator : String) (right : Node)
  | unary (operator : String) (operand : Node)
  | call (callee : Node) (arguments : List Node)
  | indexE (object : Node) (index : Node)
  | memberE (object : Node) (property : String)
  | ident (name : String)
  | lit (value : LitV)
  | arrayLit (elements : List Node)
  | objectLit (properties : List (String × Node))
deriving Repr

/-- A parse outcome: success with the new position, a thrown parse error,
or exhausted fuel. -/
inductive PRes (α : Type) where
  | pok (a : α) (pos : Nat)
  | perr (msg : String)
  | pout
deriving Repr

/-- `Parser.isAtEnd`. -/
def pAtEnd (tks : List Token) (pos : Nat) : Bool := pos ≥ tks.length

/-- `Parser.check`. -/
def pCheck (tks : List Token) (pos : Nat) (ty : String) : Bool :=
  match tks.get? pos with
  | some t => t.type = ty
  | none => false

/-- `Parser.match`: try each type in order; on the first hit advance past
the token and return the new position. -/
def pMatch (tks : List Token) (pos : Nat) (types : List String) : Option Nat :=
  if types.any (fun ty => pCheck tks pos ty) then some (pos + 1) else none

/-- The string stored in a token's `value` field (operators, identifiers
and keywords always carry strings). -/
def tokStr (t : Token) : String :=
  match t.value with
  | TValue.tvStr s => s
  | _ => ""

/-- `this.previous().value` as a string. -/
def prevStr (tks : List Token) (pos : Nat) : String :=
  match tks.get? (pos - 1) with
  | some t => tokStr t
  | none => ""

/-- `Parser.consume`. -/
def pConsume (tks : List Token) (pos : Nat) (ty : String) : PRes Token :=
  match tks.get? pos with
  | some t =>
      if t.type = ty then PRes.pok t (pos + 1)
      else PRes.perr ("expected " ++ ty)
  | none => PRes.perr ("expected " ++ ty)

/-- `Parser.consumeOptional`. -/
def pConsumeOptional (tks : List Token) (pos : Nat) (ty : String) : Nat :=
  if pCheck tks pos ty then pos + 1 else pos

/-- The literal node for a `TRUE`/`FALSE`/`NULL`/`NUMBER`/`STRING` token. -/
def litOfToken (t : Token) : Node :=
  match t.value with
  | TValue.tvNull => Node.lit LitV.lnull
  | TValue.tvNum n => Node.lit (LitV.lnum n)
  | TValue.tvStr s => Node.lit (LitV.lstr s)

/-- The `do { expression } while (match(COMMA))` loop shared by argument
lists and array literals. -/
def pExprListLoop (tks : List Token) (pe : Nat → PRes Node) :
    Nat → Nat → List Node → PRes (List Node)
  | 0, _, _ => PRes.pout
  | fuel + 1, pos, acc =>
      match pe pos with
      | PRes.pok e pos1 =>
          (match pMatch tks pos1 ["COMMA"] with
           | some pos2 => pExprListLoop tks pe fuel pos2 (acc ++ [e])
           | none => PRes.pok (acc ++ [e]) pos1)
      | PRes.perr m => PRes.perr m
      | PRes.pout => PRes.pout

/-- The object-literal property loop of `primary`. -/
def pObjPropsLoop (tks : List Token) (pe : Nat → PRes Node) :
    Nat → Nat → List (String × Node) → PRes (List (String × Node))
  | 0, _, _ => PRes.pout
  | fuel + 1, pos, acc =>
      match pConsume tks pos "IDENTIFIER" with
      | PRes.pok keyTok pos1 =>
          (match pConsume tks pos1 "COLON" with
           | PRes.pok _ pos2 =>
               (match pe pos2 with
                | PRes.pok v pos3 =>
                    (match pMatch tks pos3 ["COMMA"] with
                     | some pos4 =>
                         pObjPropsLoop tks pe fuel pos4 (acc ++ [(tokStr keyTok, v)])
                     | none => PRes.pok (acc ++ [(tokStr keyTok, v)]) pos3)
                | PRes.perr m => PRes.perr m
                | PRes.pout => PRes.pout)
           | PRes.perr m => PRes.perr m
           | PRes.pout => PRes.pout)
      | PRes.perr m => PRes.perr m
      | PRes.pout => PRes.pout

/-- `Parser.primary`. -/
def pPrimary (tks : List Token) (pe : Nat → PRes Node) (fuel : Nat)
    (pos : Nat) : PRes Node :=
  match pMatch tks pos ["TRUE"] with
  | some p => PRes.pok (Node.lit (LitV.lbool true)) p
  | none =>
  match pMatch tks pos ["FALSE"] with
  | some p => PRes.pok (Node.lit (LitV.lbool false)) p
  | none =>
  match pMatch tks pos ["NULL", "NIL"] with
  | some p => PRes.pok (Node.lit LitV.lnull) p
  | none =>
  match pMatch tks pos ["NUMBER"] with
  | some p =>
      (match tks.get? (p - 1) with
       | some t => PRes.pok (litOfToken t) p
       | none => PRes.perr ("no token"))
  | none =>
  match pMatch tks pos ["STRING"] with
  | some p =>
      (match tks.get? (p - 1) with
       | some t => PRes.pok (litOfToken t) p
       | none => PRes.perr ("no token"))
  | none =>
  match pMatch tks pos ["IDENTIFIER"] with
  | some p => PRes.pok (Node.ident (prevStr tks p)) p
  | none =>
  match pMatch tks pos ["LPAREN"] with
  | some p =>
      (match pe p with
       | PRes.pok e p1 =>
           (match pConsume tks p1 "RPAREN" with
            | PRes.pok _ p2 => PRes.pok e p2
            | PRes.perr m => PRes.perr m
            | PRes.pout => PRes.pout)
       | PRes.perr m => PRes.perr m
       | PRes.pout => PRes.pout)
  | none =>
  match pMatch tks pos ["LBRACKET"] with
  | some p =>
      if pCheck tks p "RBRACKET" then PRes.pok (Node.arrayLit []) (p + 1)
      else
        (match pExprListLoop tks pe fuel p [] with
         | PRes.pok elems p1 =>
             (match pConsume tks p1 "RBRACKET" with
              | PRes.pok _ p2 => PRes.pok (Node.arrayLit elems) p2
              | PRes.perr m => PRes.perr m
              | PRes.pout => PRes.pout)
         | PRes.perr m => PRes.perr m
         | PRes.pout => PRes.pout)
  | none =>
  match pMatch tks pos ["LBRACE"] with
  | some p =>
      if pCheck tks p "RBRACE" then PRes.pok (Node.objectLit []) (p + 1)
      else
        (match pObjPropsLoop tks pe fuel p [] with
         | PRes.pok props p1 =>
             (match pConsume tks p1 "RBRACE" with
              | PRes.pok _ p2 => PRes.pok (Node.objectLit props) p2
              | PRes.perr m => PRes.perr m
              | PRes.pout => PRes.pout)
         | PRes.perr m => PRes.perr m
         | PRes.pout => PRes.pout)
  | none => PRes.perr ("unexpected token")

/-- The chaining loop of `Parser.postfix`. -/
def pPostfixLoop (tks : List Token) (pe : Nat → PRes Node) :
    Nat → Node → Nat → PRes Node
  | 0, _, _ => PRes.pout
  | fuel + 1, e, pos =>
      match pMatch tks pos ["LPAREN"] with
      | some p =>
          if pCheck tks p "RPAREN" then
            pPostfixLoop tks pe fuel (Node.call e []) (p + 1)
          else
            (match pExprListLoop tks pe fuel p [] with
             | PRes.pok args p1 =>
                 (match pConsume tks p1 "RPAREN" with
                  | PRes.pok _ p2 => pPostfixLoop tks pe fuel (Node.call e args) p2
                  | PRes.perr m => PRes.perr m
                  | PRes.pout => PRes.pout)
             | PRes.perr m => PRes.perr m
             | PRes.pout => PRes.pout)
      | none =>
      match pMatch tks pos ["LBRACKET"] with
      | some p =>
          (match pe p with
           | PRes.pok idx p1 =>
               (match pConsume tks p1 "RBRACKET" with
                | PRes.pok _ p2 => pPostfixLoop tks pe fuel (Node.indexE e idx) p2
                | PRes.perr m => PRes.perr m
                | PRes.pout => PRes.pout)
           | PRes.perr m => PRes.perr m
           | PRes.pout => PRes.pout)
      | none =>
      match pMatch tks pos ["DOT"] with
      | some p =>
          (match pConsume tks p "IDENTIFIER" with
           | PRes.pok t p1 => pPostfixLoop tks pe fuel (Node.memberE e (tokStr t)) p1
           | PRes.perr m => PRes.perr m
           | PRes.pout => PRes.pout)
      | none => PRes.pok e pos

/-- `Parser.postfix`. -/
def pPostfix (tks : List Token) (pe : Nat → PRes Node) (fuel : Nat)
    (pos : Nat) : PRes Node :=
  match pPrimary tks pe fuel pos with
  | PRes.pok e p => pPostfixLoop tks pe fuel e p
  | PRes.perr m => PRes.perr m
  | PRes.pout => PRes.pout

/-- `Parser.unary` (prefix `! - +`, self-recursive). -/
def pUnary (tks : List Token) (pe : Nat → PRes Node) :
    Nat → Nat → PRes Node
  | 0, _ => PRes.pout
  | fuel + 1, pos =>
      match pMatch tks pos ["NOT", "MINUS", "PLUS"] with
      | some p =>
          (match pUnary tks pe fuel p with
           | PRes.pok operand p1 =>
               PRes.pok (Node.unary (prevStr tks p) operand) p1
           | PRes.perr m => PRes.perr m
           | PRes.pout => PRes.pout)
      | none => pPostfix tks pe fuel pos

/-- The `while (match(...ops))` loop shared by the binary-operator
precedence levels. -/
def pBinLoop (tks : List Token) (sub : Nat → PRes Node) (ops : List String) :
    Nat → Node → Nat → PRes Node
  | 0, _, _ => PRes.pout
  | fuel + 1, left, pos =>
      match pMatch tks pos ops with
      | some p =>
          (match sub p with
           | PRes.pok right p1 =>
               pBinLoop tks sub ops fuel (Node.binary left (prevStr tks p) right) p1
           | PRes.perr m => PRes.perr m
           | PRes.pout => PRes.pout)
      | none => PRes.pok left pos

/-- One left-associative binary precedence level (`factor`, `term`,
`comparison`, `equality`, `logicalAnd`, `logicalOr` all share this shape). -/
def pBinLevel (tks : List Token) (sub : Nat → PRes Node) (ops : List String)
    (fuel : Nat) (pos : Nat) : PRes Node :=
  match sub pos with
  | PRes.pok e p => pBinLoop tks sub ops fuel e p
  | PRes.perr m => PRes.perr m
  | PRes.pout => PRes.pout

/-- `Parser.factor`. -/
def pFactor (tks : List Token) (pe : Nat → PRes Node) (fuel : Nat)
    (pos : Nat) : PRes Node :=
  pBinLevel tks (pUnary tks pe fuel) ["MULT", "DIV", "MOD"] fuel pos

/-- `Parser.term`. -/
def pTerm (tks : List Token) (pe : Nat → PRes Node) (fuel : Nat)
    (pos : Nat) : PRes Node :=
  pBinLevel tks (pFactor tks pe fuel) ["PLUS", "MINUS"] fuel pos

/-- `Parser.comparison`. -/
def pComparison (tks : List Token) (pe : Nat → PRes Node) (fuel : Nat)
    (pos : Nat) : PRes Node :=
  pBinLevel tks (pTerm tks pe fuel) ["GT", "GTE", "LT", "LTE"] fuel pos

/-- `Parser.equality`. -/
def pEquality (tks : List Token) (pe : Nat → PRes Node) (fuel : Nat)
    (pos : Nat) : PRes Node :=
  pBinLevel tks (pComparison tks pe fuel) ["EQ", "NEQ"] fuel pos

/-- `Parser.logicalAnd`. -/
def pLogicalAnd (tks : List Token) (pe : Nat → PRes Node) (fuel : Nat)
    (pos : Nat) : PRes Node :=
  pBinLevel tks (pEquality tks pe fuel) ["AND"] fuel pos

/-- `Parser.logicalOr`. -/
def pLogicalOr (tks : List Token) (pe : Nat → PRes Node) (fuel : Nat)
    (pos : Nat) : PRes Node :=
  pBinLevel tks (pLogicalAnd tks pe fuel) ["OR"] fuel pos

/-- `Parser.assignment` (right-associative; the recursive call on the
right-hand side is `expression` again). -/
def pAssignment (tks : List Token) (pe : Nat → PRes Node) (fuel : Nat)
    (pos : Nat) : PRes Node :=
  match pLogicalOr tks pe fuel pos with
  | PRes.pok e p =>
      (match pMatch tks p
          ["ASSIGN", "PLUS_ASSIGN", "MINUS_ASSIGN", "MULT_ASSIGN", "DIV_ASSIGN"] with
       | some p1 =>
           (match pe p1 with
            | PRes.pok v p2 => PRes.pok (Node.assign e (prevStr tks p1) v) p2
            | PRes.perr m => PRes.perr m
            | PRes.pout => PRes.pout)
       | none => PRes.pok e p)
  | PRes.perr m => PRes.perr m
  | PRes.pout => PRes.pout

/-- `Parser.expression`: the full precedence chain, with fuel bounding the
nesting depth. -/
def parseExpr (tks : List Token) : Nat → Nat → PRes Node
  | 0, _ => PRes.pout
  | fuel + 1, pos => pAssignment tks (parseExpr tks fuel) fuel pos

/-- The `do { IDENTIFIER } while (match(COMMA))` parameter-list loop of
`functionDeclaration`. -/
def pParamsLoop (tks : List Token) :
    Nat → Nat → List String → PRes (List String)
  | 0, _, _ => PRes.pout
  | fuel + 1, pos, acc =>
      match pConsume tks pos "IDENTIFIER" with
      | PRes.pok t pos1 =>
          (match pMatch tks pos1 ["COMMA"] with
           | some pos2 => pParamsLoop tks fuel pos2 (acc ++ [tokStr t])
           | none => PRes.pok (acc ++ [tokStr t]) pos1)
      | PRes.perr m => PRes.perr m
      | PRes.pout => PRes.pout

/-- `Parser.block`: statements up to the closing `RBRACE`. -/
def pBlockLoop (tks : List Token) (pstmt : Nat → PRes Node) :
    Nat → Nat → List Node → PRes (List Node)
  | 0, _, _ => PRes.pout
  | fuel + 1, pos, acc =>
      if !pCheck tks pos "RBRACE" && !pAtEnd tks pos then
        match pstmt pos with
        | PRes.pok s pos1 => pBlockLoop tks pstmt fuel pos1 (acc ++ [s])
        | PRes.perr m => PRes.perr m
        | PRes.pout => PRes.pout
      else
        match pConsume tks pos "RBRACE" with
        | PRes.pok _ pos1 => PRes.pok acc pos1
        | PRes.perr m => PRes.perr m
        | PRes.pout => PRes.pout

/-- `Parser.variableDeclaration` (entered after the keyword was matched). -/
def pVariableDeclaration (tks : List Token) (pexp : Nat → PRes Node)
    (keyword : String) (pos : Nat) : PRes Node :=
  match pConsume tks pos "IDENTIFIER" with
  | PRes.pok nameTok pos1 =>
      (match pMatch tks pos1 ["ASSIGN"] with
       | some pos2 =>
           (match pexp pos2 with
            | PRes.pok init pos3 =>
                PRes.pok (Node.varDecl keyword (tokStr nameTok) (some init))
                  (pConsumeOptional tks pos3 "SEMICOLON")
            | PRes.perr m => PRes.perr m
            | PRes.pout => PRes.pout)
       | none =>
           PRes.pok (Node.varDecl keyword (tokStr nameTok) none)
             (pConsumeOptional tks pos1 "SEMICOLON"))
  | PRes.perr m => PRes.perr m
  | PRes.pout => PRes.pout

/-- `Parser.functionDeclaration` (entered after `DEF`/`FUNCTION`). -/
def pFunctionDeclaration (tks : List Token) (pstmt : Nat → PRes Node)
    (fuel : Nat) (pos : Nat) : PRes Node :=
  match pConsume tks pos "IDENTIFIER" with
  | PRes.pok nameTok pos1 =>
      (match pConsume tks pos1 "LPAREN" with
       | PRes.pok _ pos2 =>
           let afterParams : PRes (List String) :=
             if pCheck tks pos2 "RPAREN" then PRes.pok [] pos2
             else pParamsLoop tks fuel pos2 []
           (match afterParams with
            | PRes.pok params pos3 =>
                (match pConsume tks pos3 "RPAREN" with
                 | PRes.pok _ pos4 =>
                     (match pConsume tks pos4 "LBRACE" with
                      | PRes.pok _ pos5 =>
                          (match pBlockLoop tks pstmt fuel pos5 [] with
                           | PRes.pok body pos6 =>
                               PRes.pok (Node.funcDecl (tokStr nameTok) params body) pos6
                           | PRes.perr m => PRes.perr m
                           | PRes.pout => PRes.pout)
                      | PRes.perr m => PRes.perr m
                      | PRes.pout => PRes.pout)
                 | PRes.perr m => PRes.perr m
                 | PRes.pout => PRes.pout)
            | PRes.perr m => PRes.perr m
            | PRes.pout => PRes.pout)
       | PRes.perr m => PRes.perr m
       | PRes.pout => PRes.pout)
  | PRes.perr m => PRes.perr m
  | PRes.pout => PRes.pout

/-- The `while (match(ELSIF, ELIF))` loop of `ifStatement`. -/
def pElifLoop (tks : List Token) (pexp : Nat → PRes Node)
    (pstmt : Nat → PRes Node) :
    Nat → Nat → List (Node × List Node) → PRes (List (Node × List Node))
  | 0, _, _ => PRes.pout
  | fuel + 1, pos, acc =>
      match pMatch tks pos ["ELSIF", "ELIF"] with
      | some pos1 =>
          (match pConsume tks pos1 "LPAREN" with
           | PRes.pok _ pos2 =>
               (match pexp pos2 with
                | PRes.pok cond pos3 =>
                    (match pConsume tks pos3 "RPAREN" with
                     | PRes.pok _ pos4 =>
                         (match pConsume tks pos4 "LBRACE" with
                          | PRes.pok _ pos5 =>
                              (match pBlockLoop tks pstmt fuel pos5 [] with
                               | PRes.pok body pos6 =>
                                   pElifLoop tks pexp pstmt fuel pos6
                                     (acc ++ [(cond, body)])
                               | PRes.perr m => PRes.perr m
                               | PRes.pout => PRes.pout)
                          | PRes.perr m => PRes.perr m
                          | PRes.pout => PRes.pout)
                     | PRes.perr m => PRes.perr m
                     | PRes.pout => PRes.pout)
                | PRes.perr m => PRes.perr m
                | PRes.pout => PRes.pout)
           | PRes.perr m => PRes.perr m
           | PRes.pout => PRes.pout)
      | none => PRes.pok acc pos

/-- `Parser.ifStatement` (entered after `IF`). -/
def pIfStatement (tks : List Token) (pexp : Nat → PRes Node)
    (pstmt : Nat → PRes Node) (fuel : Nat) (pos : Nat) : PRes Node :=
  match pConsume tks pos "LPAREN" with
  | PRes.pok _ pos1 =>
      (match pexp pos1 with
       | PRes.pok cond pos2 =>
           (match pConsume tks pos2 "RPAREN" with
            | PRes.pok _ pos3 =>
                (match pConsume tks pos3 "LBRACE" with
                 | PRes.pok _ pos4 =>
                     (match pBlockLoop tks pstmt fuel pos4 [] with
                      | PRes.pok thenB pos5 =>
                          (match pElifLoop tks pexp pstmt fuel pos5 [] with
                           | PRes.pok elifs pos6 =>
                               (match pMatch tks pos6 ["ELSE"] with
                                | some pos7 =>
                                    (match pConsume tks pos7 "LBRACE" with
                                     | PRes.pok _ pos8 =>
                                         (match pBlockLoop tks pstmt fuel pos8 [] with
                                          | PRes.pok elseB pos9 =>
                                              PRes.pok (Node.ifStmt cond thenB elifs
                                                (some elseB)) pos9
                                          | PRes.perr m => PRes.perr m
                                          | PRes.pout => PRes.pout)
                                     | PRes.perr m => PRes.perr m
                                     | PRes.pout => PRes.pout)
                                | none =>
                                    PRes.pok (Node.ifStmt cond thenB elifs none) pos6)
                           | PRes.perr m => PRes.perr m
                           | PRes.pout => PRes.pout)
                      | PRes.perr m => PRes.perr m
                      | PRes.pout => PRes.pout)
                 | PRes.perr m => PRes.perr m
                 | PRes.pout => PRes.pout)
            | PRes.perr m => PRes.perr m
            | PRes.pout => PRes.pout)
       | PRes.perr m => PRes.perr m
       | PRes.pout => PRes.pout)
  | PRes.perr m => PRes.perr m
  | PRes.pout => PRes.pout

/-- `Parser.whileStatement` (entered after `WHILE`). -/
def pWhileStatement (tks : List Token) (pexp : Nat → PRes Node)
    (pstmt : Nat → PRes Node) (fuel : Nat) (pos : Nat) : PRes Node :=
  match pConsume tks pos "LPAREN" with
  | PRes.pok _ pos1 =>
      (match pexp pos1 with
       | PRes.pok cond pos2 =>
           (match pConsume tks pos2 "RPAREN" with
            | PRes.pok _ pos3 =>
                (match pConsume tks pos3 "LBRACE" with
                 | PRes.pok _ pos4 =>
                     (match pBlockLoop tks pstmt fuel pos4 [] with
                      | PRes.pok body pos5 =>
                          PRes.pok (Node.whileStmt cond body) pos5
                      | PRes.perr m => PRes.perr m
                      | PRes.pout => PRes.pout)
                 | PRes.perr m => PRes.perr m
                 | PRes.pout => PRes.pout)
            | PRes.perr m => PRes.perr m
            | PRes.pout => PRes.pout)
       | PRes.perr m => PRes.perr m
       | PRes.pout => PRes.pout)
  | PRes.perr m => PRes.perr m
  | PRes.pout => PRes.pout

/-- The step clause of `Parser.forStatement`:
`if (this.match('IDENTIFIER') && this.previous().value === 'step')`.
Any identifier token after the end expression is consumed; only when its
text is `step` is a step expression parsed, otherwise the default literal
`1` step is kept (and the consumed token is dropped on the floor). -/
def pStepClause (tks : List Token) (pexp : Nat → PRes Node) (pos5 : Nat) :
    PRes Node :=
  match pMatch tks pos5 ["IDENTIFIER"] with
  | some pos6 =>
      if prevStr tks pos6 = "step" then
        match pexp pos6 with
        | PRes.pok st pos7 => PRes.pok st pos7
        | PRes.perr m => PRes.perr m
        | PRes.pout => PRes.pout
      else PRes.pok (Node.lit (LitV.lnum (JSNum.num 1))) pos6
  | none => PRes.pok (Node.lit (LitV.lnum (JSNum.num 1))) pos5

/-- `Parser.forStatement` (entered after `FOR`).  The optional step clause
is recognised by `match('IDENTIFIER') && previous().value === 'step'`:
the identifier token is consumed in every case. -/
def pForStatement (tks : List Token) (pexp : Nat → PRes Node)
    (pstmt : Nat → PRes Node) (fuel : Nat) (pos : Nat) : PRes Node :=
  match pConsume tks pos "IDENTIFIER" with
  | PRes.pok iterTok pos1 =>
      (match pConsume tks pos1 "ASSIGN" with
       | PRes.pok _ pos2 =>
           (match pexp pos2 with
            | PRes.pok startE pos3 =>
                (match pConsume tks pos3 "TO" with
                 | PRes.pok _ pos4 =>
                     (match pexp pos4 with
                      | PRes.pok endE pos5 =>
                          (match pStepClause tks pexp pos5 with
                           | PRes.pok stepE pos8 =>
                               (match pConsume tks pos8 "LBRACE" with
                                | PRes.pok _ pos9 =>
                                    (match pBlockLoop tks pstmt fuel pos9 [] with
                                     | PRes.pok body pos10 =>
                                         PRes.pok (Node.forStmt (tokStr iterTok)
                                           startE endE stepE body) pos10
                                     | PRes.perr m => PRes.perr m
                                     | PRes.pout => PRes.pout)
                                | PRes.perr m => PRes.perr m
                                | PRes.pout => PRes.pout)
                           | PRes.perr m => PRes.perr m
                           | PRes.pout => PRes.pout)
                      | PRes.perr m => PRes.perr m
                      | PRes.pout => PRes.pout)
                 | PRes.perr m => PRes.perr m
                 | PRes.pout => PRes.pout)
            | PRes.perr m => PRes.perr m
            | PRes.pout => PRes.pout)
       | PRes.perr m => PRes.perr m
       | PRes.pout => PRes.pout)
  | PRes.perr m => PRes.perr m
  | PRes.pout => PRes.pout

/-- `Parser.returnStatement` (entered after `RETURN`). -/
def pReturnStatement (tks : List Token) (pexp : Nat → PRes Node)
    (pos : Nat) : PRes Node :=
  if !pCheck tks pos "SEMICOLON" && !pCheck tks pos "RBRACE" then
    match pexp pos with
    | PRes.pok v pos1 =>
        PRes.pok (Node.returnStmt (some v)) (pConsumeOptional tks pos1 "SEMICOLON")
    | PRes.perr m => PRes.perr m
    | PRes.pout => PRes.pout
  else
    PRes.pok (Node.returnStmt none) (pConsumeOptional tks pos "SEMICOLON")

/-- `Parser.expressionStatement`. -/
def pExpressionStatement (tks : List Token) (pexp : Nat → PRes Node)
    (pos : Nat) : PRes Node :=
  match pexp pos with
  | PRes.pok e pos1 =>
      PRes.pok (Node.exprStmt e) (pConsumeOptional tks pos1 "SEMICOLON")
  | PRes.perr m => PRes.perr m
  | PRes.pout => PRes.pout

/-- `Parser.statement`: keyword dispatch in source order.  The `class`,
`import` and `try` branches are outside the modelled fragment and are
mapped to an explicit parse error. -/
def parseStatement (tks : List Token) : Nat → Nat → PRes Node
  | 0, _ => PRes.pout
  | fuel + 1, pos =>
      let pexp := parseExpr tks fuel
      let pstmt := parseStatement tks fuel
      match pMatch tks pos ["LET", "CONST", "VAR"] with
      | some p => pVariableDeclaration tks pexp (prevStr tks p) p
      | none =>
      match pMatch tks pos ["DEF", "FUNCTION"] with
      | some p => pFunctionDeclaration tks pstmt fuel p
      | none =>
      match pMatch tks pos ["IF"] with
      | some p => pIfStatement tks pexp pstmt fuel p
      | none =>
      match pMatch tks pos ["WHILE"] with
      | some p => pWhileStatement tks pexp pstmt fuel p
      | none =>
      match pMatch tks pos ["FOR"] with
      | some p => pForStatement tks pexp pstmt fuel p
      | none =>
      match pMatch tks pos ["RETURN"] with
      | some p => pReturnStatement tks pexp p
      | none =>
      match pMatch tks pos ["BREAK"] with
      | some p => PRes.pok Node.breakStmt p
      | none =>
      match pMatch tks pos ["CONTINUE"] with
      | some p => PRes.pok Node.continueStmt p
      | none =>
      match pMatch tks pos ["CLASS"] with
      | some _ => PRes.perr ("classDeclaration outside modelled fragment")
      | none =>
      match pMatch tks pos ["IMPORT"] with
      | some _ => PRes.perr ("importStatement outside modelled fragment")
      | none =>
      match pMatch tks pos ["TRY"] with
      | some _ => PRes.perr ("tryStatement outside modelled fragment")
      | none => pExpressionStatement tks pexp pos

/-- The top-level loop of `Parser.parse`. -/
def parseProgramLoop (tks : List Token) : Nat → Nat → List Node → PRes (List Node)
  | 0, _, _ => PRes.pout
  | fuel + 1, pos, acc =>
      if !pAtEnd tks pos then
        match pMatch tks pos ["EOF"] with
        | some _ => PRes.pok acc pos
        | none =>
            match parseStatement tks fuel pos with
            | PRes.pok s pos1 => parseProgramLoop tks fuel pos1 (acc ++ [s])
            | PRes.perr m => PRes.perr m
            | PRes.pout => PRes.pout
      else PRes.pok acc pos

/-- `Parser.parse`: one `Program` node. -/
def parse (tks : List Token) (fuel : Nat) : PRes Node :=
  match parseProgramLoop tks fuel 0 [] with
  | PRes.pok stmts p => PRes.pok (Node.program stmts) p
  | PRes.perr m => PRes.perr m
  | PRes.pout => PRes.pout

/-! ## Evaluator (src/core/evaluator.js)

Scopes are plain JS objects chained with `Object.create`; here they are
frames in a heap, a frame's `parent` being the prototype link and the
implicit `Object.prototype` tail being the fixed key set
`objectProtoKeys`, whose host function values are modelled as `vNative`.
The thrown Break/Continue/Return signals and runtime errors are the error
results of `Res`.  Host-function invocation, `try`, `class`, `import`,
member/index access and array/object literals are outside the modelled
fragment and evaluate to an explicit `eUnsupported` error. -/

/-- Runtime values. -/
inductive Value where
  | vNull
  | vUndef
  | vBool (b : Bool)
  | vNum (n : JSNum)
  | vStr (s : String)
  | vFunc (parameters : List String) (body : List Node) (scope : Nat)
  | vNative (name : String)
deriving Repr

/-- Thrown signals and runtime errors. -/
inductive Err where
  | eBreak
  | eContinue
  | eReturn (v : Value)
  | eUndefinedVariable (name : String)
  | eNotAFunction
  | eInfiniteLoop
  | eInvalidAssignTarget
  | eUnknownOp
  | eUnsupported
deriving Repr

/-- One scope object: its own properties and its prototype link. -/
structure Frame where
  vars : List (String × Value)
  parent : Option Nat
deriving Repr

/-- Evaluator state: the scope heap and `this.currentScope` (the global
scope is frame `0`). -/
structure St where
  heap : List Frame
  cur : Nat
deriving Repr

/-- An evaluation outcome: a value, a thrown signal/error, or exhausted
fuel. -/
inductive Res where
  | rok (v : Value) (st : St)
  | rerr (e : Err) (st : St)
  | rout
deriving Repr

/-- The property names of `Object.prototype`, visible through the `in`
operator and property reads on every plain object. -/
def objectProtoKeys : List String :=
  ["constructor", "hasOwnProperty", "isPrototypeOf", "propertyIsEnumerable",
   "toLocaleString", "toString", "valueOf",
   "__defineGetter__", "__defineSetter__", "__lookupGetter__", "__lookupSetter__",
   "__proto__"]

/-- The keys of `Runtime.initializeBuiltins` (src/core/runtime.js). -/
def builtinNames : List String :=
  ["print", "println", "input", "len", "str", "int", "float", "bool", "type",
   "range", "map", "filter", "reduce", "sort", "reverse", "join", "split",
   "push", "pop", "shift", "unshift", "slice", "indexOf", "includes",
   "keys", "values", "entries", "assign", "freeze", "seal",
   "Math", "Date", "JSON",
   "setTimeout", "setInterval", "clearTimeout", "clearInterval",
   "Promise", "fetch"]

/-- Walk the prototype (parent) chain of frames looking up an own
property; the fuel is the heap size, enough for any acyclic chain. -/
def chainFind (heap : List Frame) : Nat → Nat → String → Option Value
  | 0, _, _ => none
  | fuel + 1, fid, name =>
      match heap.get? fid with
      | none => none
      | some fr =>
          match fr.vars.lookup name with
          | some v => some v
          | none =>
              match fr.parent with
              | some p => chainFind heap fuel p name
              | none => none

/-- A JS property read `scopeObject[name]`: the frame chain, then
`Object.prototype`. -/
def jsPropGet (st : St) (fid : Nat) (name : String) : Option Value :=
  match chainFind st.heap (st.heap.length + 1) fid name with
  | some v => some v
  | none =>
      if name ∈ objectProtoKeys then some (Value.vNative name) else none

/-- Setting an own property: replace the binding or append it. -/
def setVar : List (String × Value) → String → Value → List (String × Value)
  | [], name, v => [(name, v)]
  | (k, w) :: t, name, v =>
      if k = name then (k, v) :: t else (k, w) :: setVar t name v

/-- `this.currentScope[name] = value` on frame `fid`. -/
def setBinding (st : St) (fid : Nat) (name : String) (v : Value) : St :=
  match st.heap.get? fid with
  | some fr => { st with heap := st.heap.set fid { fr with vars := setVar fr.vars name v } }
  | none => st

/-- JS truthiness. -/
def truthy : Value → Bool
  | Value.vNull => false
  | Value.vUndef => false
  | Value.vBool b => b
  | Value.vNum (JSNum.num q) => !(q = 0)
  | Value.vNum JSNum.nan => false
  | Value.vNum (JSNum.inf _) => true
  | Value.vStr s => !(s = "")
  | Value.vFunc _ _ _ => true
  | Value.vNative _ => true

/-- JS `Number(string)` on a trimmed string (the whole string must be
numeric; the empty string is `0`). -/
def strToNumber (s : String) : JSNum :=
  let l := s.toList.dropWhile isSpaceJS
  let l := (l.reverse.dropWhile isSpaceJS).reverse
  match l with
  | [] => JSNum.num 0
  | c :: rest =>
      let core := if c = '+' ∨ c = '-' then rest else l
      match core with
      | [] => JSNum.nan
      | d :: _ =>
          if isDigitJS d ∧ readNumberCount core = core.length then
            match jsParseFloat core with
            | JSNum.num q => JSNum.num (if c = '-' then -q else q)
            | other => other
          else JSNum.nan

/-- JS `ToNumber` on the modelled values. -/
def toNumber : Value → JSNum
  | Value.vNull => JSNum.num 0
  | Value.vUndef => JSNum.nan
  | Value.vBool b => JSNum.num (if b then 1 else 0)
  | Value.vNum n => n
  | Value.vStr s => strToNumber s
  | Value.vFunc _ _ _ => JSNum.nan
  | Value.vNative _ => JSNum.nan

/-- JS `ToString` on the modelled values (functions render host-dependent
text, summarised as `function`). -/
def toStringV : Value → String
  | Value.vNull => "null"
  | Value.vUndef => "undefined"
  | Value.vBool b => if b then "true" else "false"
  | Value.vNum n => JSNum.toByteString n
  | Value.vStr s => s
  | Value.vFunc _ _ _ => "function"
  | Value.vNative _ => "function"

/-- Does JS `+` take the string-concatenation path for this operand? -/
def isStrOperand : Value → Bool
  | Value.vStr _ => true
  | Value.vFunc _ _ _ => true
  | Value.vNative _ => true
  | _ => false

/-- JS `+` on values. -/
def jsAddV (l r : Value) : Value :=
  if isStrOperand l || isStrOperand r then Value.vStr (toStringV l ++ toStringV r)
  else Value.vNum (JSNum.jsAdd (toNumber l) (toNumber r))

/-- JS `-` on values. -/
def jsSubV (l r : Value) : Value :=
  Value.vNum (JSNum.jsSub (toNumber l) (toNumber r))

/-- JS `*` on values. -/
def jsMulV (l r : Value) : Value :=
  Value.vNum (JSNum.jsMul (toNumber l) (toNumber r))

/-- JS `/` on values. -/
def jsDivV (l r : Value) : Value :=
  Value.vNum (JSNum.jsDiv (toNumber l) (toNumber r))

/-- JS `%` on values. -/
def jsModV (l r : Value) : Value :=
  Value.vNum (JSNum.jsMod (toNumber l) (toNumber r))

/-- JS `<` on values (string/string compares lexicographically, otherwise
numerically). -/
def jsLtV (l r : Value) : Bool :=
  match l, r with
  | Value.vStr a, Value.vStr b => decide (a < b)
  | _, _ => JSNum.jsLt (toNumber l) (toNumber r)

/-- JS `<=` on values. -/
def jsLeV (l r : Value) : Bool :=
  match l, r with
  | Value.vStr a, Value.vStr b => decide (a ≤ b)
  | _, _ => JSNum.jsLe (toNumber l) (toNumber r)

/-- JS loose equality `==` on the modelled values (function values compare
by host reference identity, summarised as `false`). -/
def jsLooseEqV (l r : Value) : Bool :=
  match l, r with
  | Value.vNull, Value.vNull => true
  | Value.vNull, Value.vUndef => true
  | Value.vUndef, Value.vNull => true
  | Value.vUndef, Value.vUndef => true
  | Value.vNull, _ => false
  | _, Value.vNull => false
  | Value.vUndef, _ => false
  | _, Value.vUndef => false
  | Value.vStr a, Value.vStr b => a = b
  | Value.vFunc _ _ _, _ => false
  | _, Value.vFunc _ _ _ => false
  | Value.vNative _, _ => false
  | _, Value.vNative _ => false
  | a, b => JSNum.jsEq (toNumber a) (toNumber b)

/-- The `switch (node.operator)` of `evaluateBinaryExpression` (both
operands are evaluated first; `&&`/`||` pick an operand by truthiness). -/
def binopV (op : String) (l r : Value) : Option Value :=
  if op = "+" then some (jsAddV l r)
  else if op = "-" then some (jsSubV l r)
  else if op = "*" then some (jsMulV l r)
  else if op = "/" then some (jsDivV l r)
  else if op = "%" then some (jsModV l r)
  else if op = "==" then some (Value.vBool (jsLooseEqV l r))
  else if op = "!=" then some (Value.vBool (!jsLooseEqV l r))
  else if op = "<" then some (Value.vBool (jsLtV l r))
  else if op = "<=" then some (Value.vBool (jsLeV l r))
  else if op = ">" then some (Value.vBool (jsLtV r l))
  else if op = ">=" then some (Value.vBool (jsLeV r l))
  else if op = "and" ∨ op = "&&" then some (if truthy l then r else l)
  else if op = "or" ∨ op = "||" then some (if truthy l then l else r)
  else none

/-- JS unary `-` on numbers. -/
def jsNeg : JSNum → JSNum
  | JSNum.num q => JSNum.num (-q)
  | JSNum.nan => JSNum.nan
  | JSNum.inf p => JSNum.inf (!p)

/-- The `switch (node.operator)` of `evaluateUnaryExpression`. -/
def unopV (op : String) (v : Value) : Option Value :=
  if op = "-" then some (Value.vNum (jsNeg (toNumber v)))
  else if op = "+" then some (Value.vNum (toNumber v))
  else if op = "not" ∨ op = "!" then some (Value.vBool (!truthy v))
  else none

/-- The value of a `Literal` node. -/
def valueOfLit : LitV → Value
  | LitV.lnull => Value.vNull
  | LitV.lbool b => Value.vBool b
  | LitV.lnum n => Value.vNum n
  | LitV.lstr s => Value.vStr s

/-- `evaluateIdentifier`: the `in`-check on the current scope (which walks
the frame chain and `Object.prototype`, subsuming the explicit prototype
loop that follows it in the source), then the global scope, then the
builtin table (another plain object, so the prototype keys are visible on
it as well), else a thrown undefined-variable error. -/
def evaluateIdentifier (st : St) (name : String) : Res :=
  match jsPropGet st st.cur name with
  | some v => Res.rok v st
  | none =>
      match jsPropGet st 0 name with
      | some v => Res.rok v st
      | none =>
          if name ∈ builtinNames ∨ name ∈ objectProtoKeys then
            Res.rok (Value.vNative name) st
          else Res.rerr (Err.eUndefinedVariable name) st

/-- `evaluateBlock` (and `evaluateProgram`, which has the same shape):
evaluate the statements in order, returning the last result (`null` for an
empty list). -/
def runBlock (ev : St → Node → Res) : St → List Node → Value → Res
  | st, [], r => Res.rok r st
  | st, n :: rest, _ =>
      match ev st n with
      | Res.rok v st1 => runBlock ev st1 rest v
      | Res.rerr e st1 => Res.rerr e st1
      | Res.rout => Res.rout

/-- The loop of `evaluateWhileStatement`: test, post-increment ceiling
check against `maxIterations = 1000000`, body with break/continue
interception. -/
def whileLoopAux (condEval : St → Res) (bodyEval : St → Res) :
    Nat → St → Nat → Value → Res
  | 0, _, _, _ => Res.rout
  | wfuel + 1, st, iterations, result =>
      match condEval st with
      | Res.rok cv st1 =>
          if truthy cv then
            if iterations > 1000000 then Res.rerr Err.eInfiniteLoop st1
            else
              match bodyEval st1 with
              | Res.rok r st2 => whileLoopAux condEval bodyEval wfuel st2 (iterations + 1) r
              | Res.rerr Err.eBreak st2 => Res.rok result st2
              | Res.rerr Err.eContinue st2 =>
                  whileLoopAux condEval bodyEval wfuel st2 (iterations + 1) result
              | Res.rerr e st2 => Res.rerr e st2
              | Res.rout => Res.rout
          else Res.rok result st1
      | Res.rerr e st1 => Res.rerr e st1
      | Res.rout => Res.rout

/-- The `for (let i = start; i <= end; i += step)` loop of
`evaluateForStatement` (no iteration ceiling; the caller restores the
scope on normal exit and on break, not on a propagated throw). -/
def forLoopAux (bodyEval : St → Res) (iterName : String) (endv stepv : Value) :
    Nat → St → Value → Value → Res
  | 0, _, _, _ => Res.rout
  | ffuel + 1, st, i, result =>
      if jsLeV i endv then
        let st1 := setBinding st st.cur iterName i
        match bodyEval st1 with
        | Res.rok r st2 => forLoopAux bodyEval iterName endv stepv ffuel st2 (jsAddV i stepv) r
        | Res.rerr Err.eBreak st2 => Res.rok result st2
        | Res.rerr Err.eContinue st2 =>
            forLoopAux bodyEval iterName endv stepv ffuel st2 (jsAddV i stepv) result
        | Res.rerr e st2 => Res.rerr e st2
        | Res.rout => Res.rout
      else Res.rok result st

/-- Argument-list evaluation for `evaluateCallExpression`. -/
inductive VsRes where
  | vok (vs : List Value) (st : St)
  | verr (e : Err) (st : St)
  | vout

/-- Evaluate call arguments left to right. -/
def evalArgs (ev : St → Node → Res) : St → List Node → List Value → VsRes
  | st, [], acc => VsRes.vok acc st
  | st, a :: rest, acc =>
      match ev st a with
      | Res.rok v st1 => evalArgs ev st1 rest (acc ++ [v])
      | Res.rerr e st1 => VsRes.verr e st1
      | Res.rout => VsRes.vout

/-- Bind parameters positionally (`args[i]`, `undefined` when missing). -/
def bindParams (st : St) (params : List String) (args : List Value) : St :=
  (params.enum.foldl (fun acc pi =>
    setBinding acc acc.cur pi.2 ((args.get? pi.1).getD Value.vUndef)) st)

/-- The elif chain of `evaluateIfStatement`. -/
def elifEval (ev : St → Node → Res) (blockEval : St → List Node → Res) :
    St → List (Node × List Node) → Option (List Node) → Res
  | st, [], elseB =>
      (match elseB with
       | some b => blockEval st b
       | none => Res.rok Value.vNull st)
  | st, (c, b) :: rest, elseB =>
      match ev st c with
      | Res.rok cv st1 =>
          if truthy cv then blockEval st1 b
          else elifEval ev blockEval st1 rest elseB
      | Res.rerr e st1 => Res.rerr e st1
      | Res.rout => Res.rout

/-- `evaluateNode`: the tree walk, with fuel bounding the recursion
depth and the number of loop iterations. -/
def evaluateNode : Nat → St → Node → Res
  | 0, _, _ => Res.rout
  | fuel + 1, st, node =>
      match node with
      | Node.program statements => runBlock (evaluateNode fuel) st statements Value.vNull
      | Node.varDecl _ name initializer =>
          (match initializer with
           | some e =>
               (match evaluateNode fuel st e with
                | Res.rok v st1 => Res.rok v (setBinding st1 st1.cur name v)
                | Res.rerr e1 st1 => Res.rerr e1 st1
                | Res.rout => Res.rout)
           | none => Res.rok Value.vNull (setBinding st st.cur name Value.vNull))
      | Node.funcDecl name parameters body =>
          let f := Value.vFunc parameters body st.cur
          Res.rok f (setBinding st st.cur name f)
      | Node.ifStmt condition thenB elifs elseB =>
          (match evaluateNode fuel st condition with
           | Res.rok cv st1 =>
               if truthy cv then runBlock (evaluateNode fuel) st1 thenB Value.vNull
               else elifEval (evaluateNode fuel)
                 (fun s b => runBlock (evaluateNode fuel) s b Value.vNull) st1 elifs elseB
           | Res.rerr e st1 => Res.rerr e st1
           | Res.rout => Res.rout)
      | Node.whileStmt condition body =>
          whileLoopAux (fun s => evaluateNode fuel s condition)
            (fun s => runBlock (evaluateNode fuel) s body Value.vNull)
            fuel st 0 Value.vNull
      | Node.forStmt iterator startE endE stepE body =>
          (match evaluateNode fuel st startE with
           | Res.rok sv st1 =>
               (match evaluateNode fuel st1 endE with
                | Res.rok ev st2 =>
                    (match evaluateNode fuel st2 stepE with
                     | Res.rok pv st3 =>
                         let newId := st3.heap.length
                         let st4 : St :=
                           { heap := st3.heap ++ [{ vars := [], parent := some st3.cur }],
                             cur := newId }
                         (match forLoopAux
                             (fun s => runBlock (evaluateNode fuel) s body Value.vNull)
                             iterator ev pv fuel st4 sv Value.vNull with
                          | Res.rok r st5 => Res.rok r { st5 with cur := st3.cur }
                          | Res.rerr e st5 => Res.rerr e st5
                          | Res.rout => Res.rout)
                     | Res.rerr e st3 => Res.rerr e st3
                     | Res.rout => Res.rout)
                | Res.rerr e st2 => Res.rerr e st2
                | Res.rout => Res.rout)
           | Res.rerr e st1 => Res.rerr e st1
           | Res.rout => Res.rout)
      | Node.returnStmt value =>
          (match value with
           | some e =>
               (match evaluateNode fuel st e with
                | Res.rok v st1 => Res.rerr (Err.eReturn v) st1
                | Res.rerr e1 st1 => Res.rerr e1 st1
                | Res.rout => Res.rout)
           | none => Res.rerr (Err.eReturn Value.vNull) st)
      | Node.breakStmt => Res.rerr Err.eBreak st
      | Node.continueStmt => Res.rerr Err.eContinue st
      | Node.exprStmt e => evaluateNode fuel st e
      | Node.assign target operator value =>
          (match evaluateNode fuel st value with
           | Res.rok v st1 =>
               (match target with
                | Node.ident name =>
                    if operator = "=" then
                      let st2 := setBinding st1 st1.cur name v
                      Res.rok ((jsPropGet st2 st2.cur name).getD Value.vUndef) st2
                    else
                      let current0 := (jsPropGet st1 st1.cur name).getD Value.vUndef
                      let current := if truthy current0 then current0
                        else Value.vNum (JSNum.num 0)
                      let newV : Option Value :=
                        if operator = "+=" then some (jsAddV current v)
                        else if operator = "-=" then some (jsSubV current v)
                        else if operator = "*=" then some (jsMulV current v)
                        else if operator = "/=" then some (jsDivV current v)
                        else none
                      let st2 := match newV with
                        | some w => setBinding st1 st1.cur name w
                        | none => st1
                      Res.rok ((jsPropGet st2 st2.cur name).getD Value.vUndef) st2
                | Node.indexE _ _ => Res.rerr Err.eUnsupported st1
                | Node.memberE _ _ => Res.rerr Err.eUnsupported st1
                | _ => Res.rerr Err.eInvalidAssignTarget st1)
           | Res.rerr e st1 => Res.rerr e st1
           | Res.rout => Res.rout)
      | Node.binary left operator right =>
          (match evaluateNode fuel st left with
           | Res.rok lv st1 =>
               (match evaluateNode fuel st1 right with
                | Res.rok rv st2 =>
                    (match binopV operator lv rv with
                     | some v => Res.rok v st2
                     | none => Res.rerr Err.eUnknownOp st2)
                | Res.rerr e st2 => Res.rerr e st2
                | Res.rout => Res.rout)
           | Res.rerr e st1 => Res.rerr e st1
           | Res.rout => Res.rout)
      | Node.unary operator operand =>
          (match evaluateNode fuel st operand with
           | Res.rok v st1 =>
               (match unopV operator v with
                | some w => Res.rok w st1
                | none => Res.rerr Err.eUnknownOp st1)
           | Res.rerr e st1 => Res.rerr e st1
           | Res.rout => Res.rout)
      | Node.call callee arguments =>
          (match evaluateNode fuel st callee with
           | Res.rok cv st1 =>
               (match evalArgs (evaluateNode fuel) st1 arguments [] with
                | VsRes.vok args st2 =>
                    (match cv with
                     | Value.vNative _ => Res.rerr Err.eUnsupported st2
                     | Value.vFunc params body fscope =>
                         let previous := st2.cur
                         let newId := st2.heap.length
                         let st3 : St :=
                           { heap := st2.heap ++ [{ vars := [], parent := some fscope }],
                             cur := newId }
                         let st4 := bindParams st3 params args
                         (match runBlock (evaluateNode fuel) st4 body Value.vNull with
                          | Res.rok _ st5 => Res.rok Value.vNull { st5 with cur := previous }
                          | Res.rerr (Err.eReturn v) st5 =>
                              Res.rok v { st5 with cur := previous }
                          | Res.rerr e st5 => Res.rerr e { st5 with cur := previous }
                          | Res.rout => Res.rout)
                     | _ => Res.rerr Err.eNotAFunction st2)
                | VsRes.verr e st2 => Res.rerr e st2
                | VsRes.vout => Res.rout)
           | Res.rerr e st1 => Res.rerr e st1
           | Res.rout => Res.rout)
      | Node.ident name => evaluateIdentifier st name
      | Node.lit v => Res.rok (valueOfLit v) st
      | Node.indexE _ _ => Res.rerr Err.eUnsupported st
      | Node.memberE _ _ => Res.rerr Err.eUnsupported st
      | Node.arrayLit _ => Res.rerr Err.eUnsupported st
      | Node.objectLit _ => Res.rerr Err.eUnsupported st

/-! ## Engine (index.cjs) -/

/-- The `Evaluator` constructor state: one empty global scope, current. -/
def freshEvaluatorSt : St := { heap := [{ vars := [], parent := none }], cur := 0 }

/-- `LumosEngine` state: the single evaluator created in the constructor
and reused by every `execute` call. -/
structure EngineSt where
  evalSt : St
deriving Repr

/-- `new LumosEngine()`. -/
def freshEngine : EngineSt := { evalSt := freshEvaluatorSt }

/-- An `execute` outcome. -/
inductive ExecRes where
  | xok (v : Value)
  | xerrLex
  | xerrParse
  | xerrEval (e : Err)
  | xout
deriving Repr

/-- `LumosEngine.execute`: a fresh lexer and parser per call, but the
constructor's evaluator (and its global scope) shared across calls; errors
are wrapped and rethrown. -/
def execute (eng : EngineSt) (code : List Char) (fuel : Nat) :
    ExecRes × EngineSt :=
  match tokenize code with
  | none => (ExecRes.xerrLex, eng)
  | some tks =>
      match parse tks fuel with
      | PRes.perr _ => (ExecRes.xerrParse, eng)
      | PRes.pout => (ExecRes.xout, eng)
      | PRes.pok ast _ =>
          match evaluateNode fuel eng.evalSt ast with
          | Res.rok v st1 => (ExecRes.xok v, { evalSt := st1 })
          | Res.rerr e st1 => (ExecRes.xerrEval e, { evalSt := st1 })
          | Res.rout => (ExecRes.xout, eng)

/-! ## Fixtures used by individual claims -/

/-- An `assign` instruction whose result `t0` is read by no instruction. -/
def deadAssign : Instr :=
  { op := "assign", arg1 := Arg.anum (JSNum.num 5), arg2 := Arg.anull,
    result := some ("t0") }

/-- A `label` instruction whose label is the target of no jump. -/
def untargetedLabel : Instr :=
  { op := "label", arg1 := Arg.astr ("L9"), arg2 := Arg.anull, result := none }

/-- `t0 = x + y`. -/
def cseI1 : Instr :=
  { op := "+", arg1 := Arg.astr ("x"), arg2 := Arg.astr ("y"),
    result := some ("t0") }

/-- `x = 5`. -/
def cseI2 : Instr :=
  { op := "assign", arg1 := Arg.anum (JSNum.num 5), arg2 := Arg.anull,
    result := some ("x") }

/-- `t1 = x + y`. -/
def cseI3 : Instr :=
  { op := "+", arg1 := Arg.astr ("x"), arg2 := Arg.astr ("y"),
    result := some ("t1") }

/-- A jump instruction: not arithmetic, untouched by constant folding. -/
def gotoInstr : Instr :=
  { op := "goto", arg1 := Arg.anull, arg2 := Arg.anull, result := some ("L0") }

/-- `t0 = 2 + 3`, an arithmetic instruction with two literal operands. -/
def litPlusInstr : Instr :=
  { op := "+", arg1 := Arg.anum (JSNum.num 2), arg2 := Arg.anum (JSNum.num 3),
    result := some ("t0") }

/-- The operand number of an `anum` argument (dead default otherwise). -/
def argNum : Arg → JSNum
  | Arg.anum n => n
  | _ => JSNum.nan

/-- The `assign` instruction constant folding produces for an arithmetic
instruction with two literal operands. -/
def foldedAssign (i : Instr) : Instr :=
  { op := "assign", arg1 := Arg.anum (foldOp i.op (argNum i.arg1) (argNum i.arg2)),
    arg2 := Arg.anull, result := i.result }

/-- A for-statement node with literal bounds and step and an empty body. -/
def forStepNode (x : String) (a b q : ℚ) : Node :=
  Node.forStmt x (Node.lit (LitV.lnum (JSNum.num a)))
    (Node.lit (LitV.lnum (JSNum.num b))) (Node.lit (LitV.lnum (JSNum.num q))) []

/-- A token with irrelevant position data. -/
def tkn (ty : String) (v : TValue) : Token :=
  { type := ty, value := v, line := 1, column := 1 }

/-- The token stream of `for i = 1 to 2 w { }` for an identifier text `w`. -/
def c10Tokens (w : String) : List Token :=
  [tkn ("FOR") (TValue.tvStr ("for")), tkn ("IDENTIFIER") (TValue.tvStr ("i")),
   tkn ("ASSIGN") (TValue.tvStr ("=")), tkn ("NUMBER") (TValue.tvNum (JSNum.num 1)),
   tkn ("TO") (TValue.tvStr ("to")), tkn ("NUMBER") (TValue.tvNum (JSNum.num 2)),
   tkn ("IDENTIFIER") (TValue.tvStr w), tkn ("LBRACE") (TValue.tvStr ("\x7b")),
   tkn ("RBRACE") (TValue.tvStr ("\x7d")), tkn ("EOF") TValue.tvNull]

/-- The token stream of `for i = 1 to 2 step 5 { }`. -/
def c10StepTokens : List Token :=
  [tkn ("FOR") (TValue.tvStr ("for")), tkn ("IDENTIFIER") (TValue.tvStr ("i")),
   tkn ("ASSIGN") (TValue.tvStr ("=")), tkn ("NUMBER") (TValue.tvNum (JSNum.num 1)),
   tkn ("TO") (TValue.tvStr ("to")), tkn ("NUMBER") (TValue.tvNum (JSNum.num 2)),
   tkn ("IDENTIFIER") (TValue.tvStr ("step")), tkn ("NUMBER") (TValue.tvNum (JSNum.num 5)),
   tkn ("LBRACE") (TValue.tvStr ("\x7b")),
   tkn ("RBRACE") (TValue.tvStr ("\x7d")), tkn ("EOF") TValue.tvNull]

/-! ## Theorems -/

/-- C1: the claim says an instruction with an unread result, and an
untargeted label, are dropped by one dead-code-elimination pass.  The
pass's backward loop adds every instruction's own result to the `used`
set, and every label instruction adds its own name to the `labels` set, so
nothing is ever dropped: both inputs survive the pass unchanged. -/
theorem c1_dce_drops_nothing_at_failing_input :
    deadCodeElimination [deadAssign] = [deadAssign] ∧
    deadCodeElimination [untargetedLabel] = [untargetedLabel] := by
  decide

/-- C2 counterexample: the claim says the pass does not replace
`t1 = x + y` after the intervening `x = 5`, but the pass memoizes only
`(op, arg1, arg2)` and does replace it, so the third instruction of the
output differs from the third instruction of the input. -/
theorem c2_cse_third_instruction_changed :
    (commonSubexpressionElimination [cseI1, cseI2, cseI3]).get? 2 ≠ some cseI3 := by
  decide

/-- C2 amended: one CSE pass over `t0 = x + y; x = 5; t1 = x + y` DOES
replace the third instruction by `t1 = assign t0`, the documented
unsoundness across the intervening mutation of `x`. -/
theorem c2_cse_folds_across_mutation :
    commonSubexpressionElimination [cseI1, cseI2, cseI3] =
      [cseI1, cseI2,
       { op := "assign", arg1 := Arg.astr ("t0"), arg2 := Arg.anull,
         result := some ("t1") }] := by
  decide

/-- C3: the claim says an identifier bound in no scope, not global and not
a builtin never yields a value.  `toString` is bound nowhere in a fresh
evaluator and is not a builtin, yet the `in`-based lookup sees
`Object.prototype` and returns its host `toString` function as a value
instead of raising the undefined-variable error. -/
theorem c3_proto_identifier_yields_value :
    ("toString" ∉ builtinNames) ∧
    freshEvaluatorSt = { heap := [{ vars := [], parent := none }], cur := 0 } ∧
    evaluateNode 2 freshEvaluatorSt (Node.ident ("toString")) =
      Res.rok (Value.vNative ("toString")) freshEvaluatorSt :=
  ⟨by decide, rfl, rfl⟩

/-- C5 counterexample: two successive `execute` calls with the identical
source `x += 1` on the same fresh engine return 1 and then 2 — the
constructor's evaluator and its global scope are shared across calls, so
the results are not identical. -/
theorem c5_execute_not_deterministic_across_calls :
    (execute freshEngine (("x += 1").toList) 99).1 =
      ExecRes.xok (Value.vNum (JSNum.num 1)) ∧
    (execute (execute freshEngine (("x += 1").toList) 99).2
        (("x += 1").toList) 99).1 =
      ExecRes.xok (Value.vNum (JSNum.num 2)) ∧
    ExecRes.xok (Value.vNum (JSNum.num 1)) ≠ ExecRes.xok (Value.vNum (JSNum.num 2)) := by
  refine ⟨by with_unfolding_all rfl, by with_unfolding_all rfl, ?_⟩
  intro h
  injection h with h1
  injection h1 with h2
  injection h2 with h3
  exact absurd h3 (by norm_num)

/-- C5 amended: the engine's single evaluator persists across `execute`
calls; a program whose effect on the global scope is the same on every run
(here `let x = 5`) still returns identical results on two successive calls
of the same fresh engine. -/
theorem c5_execute_same_result_when_state_stable :
    (execute freshEngine (("let x = 5").toList) 99).1 =
      ExecRes.xok (Value.vNum (JSNum.num 5)) ∧
    (execute (execute freshEngine (("let x = 5").toList) 99).2
        (("let x = 5").toList) 99).1 =
      ExecRes.xok (Value.vNum (JSNum.num 5)) :=
  ⟨by with_unfolding_all rfl, by with_unfolding_all rfl⟩

/-- C6 counterexample: a list holding one `goto` satisfies the claim's
hypothesis vacuously (it has no arithmetic instruction at all), yet after
one constant-folding pass the output is not made of `assign` instructions
only. -/
theorem c6_nonarith_not_folded_to_assign :
    (∀ i ∈ [gotoInstr], i.op ∈ arithOps →
      (∃ a, i.arg1 = Arg.anum a) ∧ (∃ b, i.arg2 = Arg.anum b)) ∧
    ¬(∀ i ∈ constantFolding [gotoInstr], i.op = "assign") := by
  constructor
  · intro i hi hop
    rw [List.mem_singleton] at hi
    subst hi
    exact absurd hop (by decide)
  · intro h
    have hg := h gotoInstr (by rw [show constantFolding [gotoInstr] = [gotoInstr] from rfl]; exact List.mem_singleton.mpr rfl)
    exact absurd hg (by decide)

/-- C6 amended: after one constant-folding pass over a list every one of
whose instructions is arithmetic with two literal-number operands, the
result consists solely of `assign` instructions, each carrying the
literal computed by the folding switch. -/
theorem c6_all_literal_arith_folds_to_assigns (l : List Instr)
    (h : ∀ i ∈ l, i.op ∈ arithOps ∧
      (∃ a, i.arg1 = Arg.anum a) ∧ (∃ b, i.arg2 = Arg.anum b)) :
    constantFolding l = l.map foldedAssign := by
  unfold constantFolding
  apply List.map_congr_left
  intro i hi
  obtain ⟨hop, ⟨a, ha⟩, ⟨b, hb⟩⟩ := h i hi
  simp only [hop, if_true, ha, hb, foldedAssign, argNum]

/-- `setBinding` never changes which frame is current. -/
theorem setBinding_cur (st : St) (fid : Nat) (name : String) (v : Value) :
    (setBinding st fid name v).cur = st.cur := by
  unfold setBinding
  cases st.heap.get? fid <;> rfl

/-- `setBinding` on frame `fid` leaves every other frame unchanged. -/
theorem setBinding_get_ne (st : St) (fid : Nat) (name : String) (v : Value)
    (gid : Nat) (h : gid ≠ fid) :
    (setBinding st fid name v).heap.get? gid = st.heap.get? gid := by
  unfold setBinding
  cases hh : st.heap.get? fid with
  | none => rfl
  | some fr =>
      simp only [List.get?_eq_getElem?]
      exact List.getElem?_set_ne (fun he => h he.symm)

/-- C8: a plain `x = v` assignment writes only the current (innermost)
scope frame: the result state keeps the same current frame and every
other frame's bindings unchanged; consequently a global `x` set to 10
before a `for` loop whose body assigns `x = 99` (in the loop's own child
scope) still reads 10 after the loop exits. -/
theorem c8_plain_assignment_writes_innermost_only :
    (∀ (f : Nat) (st : St) (x : String) (v : LitV) (fid : Nat), fid ≠ st.cur →
      ∃ rv st2,
        evaluateNode (f + 2) st (Node.assign (Node.ident x) ("=") (Node.lit v)) =
          Res.rok rv st2 ∧
        st2.cur = st.cur ∧ st2.heap.get? fid = st.heap.get? fid) ∧
    (execute freshEngine (("let x = 10 for i = 1 to 2 { x = 99 } x").toList) 99).1 =
      ExecRes.xok (Value.vNum (JSNum.num 10)) := by
  constructor
  · intro f st x v fid hfid
    refine ⟨_, setBinding st st.cur x (valueOfLit v), rfl, ?_, ?_⟩
    · exact setBinding_cur st st.cur x (valueOfLit v)
    · exact setBinding_get_ne st st.cur x (valueOfLit v) fid hfid
  · with_unfolding_all rfl

/-- C8 witness: the frame-effect statement applied in a fresh evaluator
state to the frame index 1 (distinct from the current frame 0). -/
theorem c8_plain_assignment_writes_innermost_only_witness :
    (1 : Nat) ≠ freshEvaluatorSt.cur ∧
    (∃ rv st2,
      evaluateNode (0 + 2) freshEvaluatorSt
          (Node.assign (Node.ident ("x")) ("=") (Node.lit (LitV.lnum (JSNum.num 7)))) =
        Res.rok rv st2 ∧
      st2.cur = freshEvaluatorSt.cur ∧
      st2.heap.get? 1 = freshEvaluatorSt.heap.get? 1) :=
  ⟨by decide,
   c8_plain_assignment_writes_innermost_only.1 0 freshEvaluatorSt ("x")
     (LitV.lnum (JSNum.num 7)) 1 (by decide)⟩

/-- With a nonpositive literal step and a loop variable at most the bound,
the for loop runs out of any amount of fuel: it neither returns nor
throws. -/
theorem forLoopAux_nonpos_step (bodyEval : St → Res)
    (hb : ∀ s, ∃ u, bodyEval s = Res.rok u s)
    (x : String) (b q : ℚ) (hq : q ≤ 0) :
    ∀ (ff : Nat) (st : St) (i : ℚ), i ≤ b → ∀ r,
      forLoopAux bodyEval x (Value.vNum (JSNum.num b)) (Value.vNum (JSNum.num q))
        ff st (Value.vNum (JSNum.num i)) r = Res.rout := by
  intro ff
  induction ff with
  | zero => intro st i hi r; rfl
  | succ n ih =>
      intro st i hi r
      have hle : jsLeV (Value.vNum (JSNum.num i)) (Value.vNum (JSNum.num b)) = true := by
        simp only [jsLeV, toNumber, JSNum.jsLe, decide_eq_true_eq]
        exact hi
      obtain ⟨u, hu⟩ := hb (setBinding st st.cur x (Value.vNum (JSNum.num i)))
      have hadd : jsAddV (Value.vNum (JSNum.num i)) (Value.vNum (JSNum.num q)) =
          Value.vNum (JSNum.num (i + q)) := by
        simp only [jsAddV, isStrOperand, Bool.or_self, Bool.false_eq_true, if_false,
          toNumber, JSNum.jsAdd]
      simp only [forLoopAux, hle, if_true, hu, hadd]
      exact ih _ (i + q) (by linarith) u

/-- One-step unfolding of the evaluator on the literal-step for node: the
three literal headers evaluate to themselves and the child scope frame is
pushed, leaving the loop. -/
theorem evaluateNode_forStep_unfold (m : Nat) (st : St) (x : String) (a b q : ℚ) :
    evaluateNode (m + 2) st (forStepNode x a b q) =
      (match forLoopAux (fun s => runBlock (evaluateNode (m + 1)) s [] Value.vNull)
          x (Value.vNum (JSNum.num b)) (Value.vNum (JSNum.num q)) (m + 1)
          { heap := st.heap ++ [{ vars := [], parent := some st.cur }],
            cur := st.heap.length }
          (Value.vNum (JSNum.num a)) Value.vNull with
        | Res.rok r st5 => Res.rok r { heap := st5.heap, cur := st.cur }
        | Res.rerr e st5 => Res.rerr e st5
        | Res.rout => Res.rout) := rfl

/-- C9: the iteration ceiling applies only to while statements.  A for
statement with literal start ≤ end and a nonpositive literal step runs out
of every fuel allowance — for no fuel does it terminate, and for no fuel
does it raise the infinite-loop error (or any other error). -/
theorem c9_for_nonpositive_step_never_terminates
    (x : String) (a b q : ℚ) (h1 : a ≤ b) (h2 : q ≤ 0) :
    ∀ (f : Nat) (st : St),
      evaluateNode f st (forStepNode x a b q) = Res.rout ∧
      ∀ (e : Err) (st2 : St), evaluateNode f st (forStepNode x a b q) ≠ Res.rerr e st2 := by
  intro f st
  have hmain : evaluateNode f st (forStepNode x a b q) = Res.rout := by
    match f with
    | 0 => rfl
    | 1 => rfl
    | (m + 2) =>
        have hloop := forLoopAux_nonpos_step
          (fun s => runBlock (evaluateNode (m + 1)) s [] Value.vNull)
          (fun s => ⟨Value.vNull, rfl⟩) x b q h2 (m + 1)
          { heap := st.heap ++ [{ vars := [], parent := some st.cur }],
            cur := st.heap.length } a h1 Value.vNull
        rw [evaluateNode_forStep_unfold, hloop]
  exact ⟨hmain, fun e st2 hcontra => Res.noConfusion (hmain.symm.trans hcontra)⟩

/-- C9 witness: the statement at start 1, end 3, step 0. -/
theorem c9_for_nonpositive_step_never_terminates_witness :
    (1 : ℚ) ≤ 3 ∧ (0 : ℚ) ≤ 0 ∧
    (∀ (f : Nat) (st : St),
      evaluateNode f st (forStepNode ("i") 1 3 0) = Res.rout ∧
      ∀ (e : Err) (st2 : St),
        evaluateNode f st (forStepNode ("i") 1 3 0) ≠ Res.rerr e st2) :=
  ⟨by norm_num, le_refl 0,
   c9_for_nonpositive_step_never_terminates ("i") 1 3 0 (by norm_num) (le_refl 0)⟩

/-- The while loop hits the 1,000,000 ceiling: when the condition is a
state-preserving truthy evaluation and the body a state-preserving normal
evaluation, enough fuel always produces the infinite-loop error. -/
theorem whileLoopAux_ceiling (condEval bodyEval : St → Res) (cv : Value)
    (hc : ∀ s, condEval s = Res.rok cv s) (htv : truthy cv = true)
    (hb : ∀ s, ∃ u, bodyEval s = Res.rok u s) :
    ∀ (j k f : Nat) (st : St) (r : Value), 1000001 ≤ k + j → j + 2 ≤ f →
      whileLoopAux condEval bodyEval f st k r = Res.rerr Err.eInfiniteLoop st := by
  intro j
  induction j with
  | zero =>
      intro k f st r hk hf
      obtain ⟨f1, rfl⟩ : ∃ f1, f = f1 + 1 := ⟨f - 1, by omega⟩
      simp only [whileLoopAux, hc st, htv, if_true]
      rw [if_pos (by omega)]
  | succ jn ih =>
      intro k f st r hk hf
      obtain ⟨f1, rfl⟩ : ∃ f1, f = f1 + 1 := ⟨f - 1, by omega⟩
      simp only [whileLoopAux, hc st, htv, if_true]
      by_cases hcase : k > 1000000
      · rw [if_pos hcase]
      · rw [if_neg hcase]
        obtain ⟨u, hu⟩ := hb st
        simp only [hu]
        exact ih (k + 1) f1 st u (by omega) (by omega)

/-- C4: a while statement whose condition keeps evaluating truthy (state
preserved) raises the infinite-loop error once the fixed ceiling of
1,000,000 iterations is passed; and a while statement whose condition goes
falsy within the ceiling completes normally with the last body result
(`let x = 0 while (x < 3) { x = x + 1 }` returns 3). -/
theorem c4_while_iteration_ceiling
    (condE : Node) (body : List Node) (cv : Value) (f : Nat)
    (hc : ∀ (g : Nat) (s : St), evaluateNode (g + 1) s condE = Res.rok cv s)
    (htv : truthy cv = true)
    (hb : ∀ (g : Nat) (s : St), ∃ u, runBlock (evaluateNode g) s body Value.vNull = Res.rok u s)
    (hf : 1000004 ≤ f) :
    (∀ st, evaluateNode f st (Node.whileStmt condE body) = Res.rerr Err.eInfiniteLoop st) ∧
    (execute freshEngine (("let x = 0 while (x < 3) { x = x + 1 }").toList) 99).1 =
      ExecRes.xok (Value.vNum (JSNum.num 3)) := by
  constructor
  · intro st
    obtain ⟨g, rfl⟩ : ∃ g, f = (g + 1) + 1 := ⟨f - 2, by omega⟩
    simp only [evaluateNode]
    exact whileLoopAux_ceiling (fun s => evaluateNode (g + 1) s condE)
      (fun s => runBlock (evaluateNode (g + 1)) s body Value.vNull) cv
      (fun s => hc g s) htv (fun s => hb (g + 1) s)
      1000001 0 (g + 1) st Value.vNull (by omega) (by omega)
  · with_unfolding_all rfl

/-- C4 witness: the ceiling statement at the literally true condition with
an empty body, at fuel 1000004. -/
theorem c4_while_iteration_ceiling_witness :
    (∀ (g : Nat) (s : St),
      evaluateNode (g + 1) s (Node.lit (LitV.lbool true)) = Res.rok (Value.vBool true) s) ∧
    truthy (Value.vBool true) = true ∧
    (∀ (g : Nat) (s : St), ∃ u, runBlock (evaluateNode g) s [] Value.vNull = Res.rok u s) ∧
    ((∀ st, evaluateNode 1000004 st
        (Node.whileStmt (Node.lit (LitV.lbool true)) []) = Res.rerr Err.eInfiniteLoop st) ∧
      (execute freshEngine (("let x = 0 while (x < 3) { x = x + 1 }").toList) 99).1 =
        ExecRes.xok (Value.vNum (JSNum.num 3))) :=
  ⟨fun _ _ => rfl, rfl, fun _ _ => ⟨Value.vNull, rfl⟩,
   c4_while_iteration_ceiling (Node.lit (LitV.lbool true)) [] (Value.vBool true)
     1000004 (fun _ _ => rfl) rfl (fun _ _ => ⟨Value.vNull, rfl⟩) (Nat.le_refl _)⟩

/-- A scanning loop never counts more characters than remain. -/
theorem countWhile_le (p : Char → Bool) (l : List Char) :
    countWhile p l ≤ l.length := by
  induction l with
  | nil => simp [countWhile]
  | cons c t ihc =>
      simp only [countWhile, List.length_cons]
      split <;> omega

/-- Every character a scanning loop consumed satisfies its predicate. -/
theorem countWhile_sat (p : Char → Bool) (l : List Char) :
    ∀ c ∈ l.take (countWhile p l), p c := by
  induction l with
  | nil => simp [countWhile]
  | cons c t ihc =>
      by_cases hp : p c
      · simp only [countWhile, hp, if_true, List.take_succ_cons, List.mem_cons]
        rintro x (rfl | hx)
        · exact hp
        · exact ihc x hx
      · simp [countWhile, hp]

/-- Splicing a middle span back onto the tail: the span `[i, j)` followed
by the rest from `j` is the rest from `i`. -/
theorem slice_append_drop (s : List Char) (i j : Nat) (h1 : i ≤ j)
    (h2 : j ≤ s.length) :
    (s.take j).drop i ++ s.drop j = s.drop i := by
  conv_rhs => rw [← List.take_append_drop j s, List.drop_append_eq_append_drop]
  rw [List.length_take, Nat.min_eq_left h2, Nat.sub_eq_zero_of_le h1, List.drop_zero]

/-- The string scanner stops strictly inside the remaining input (the
closing quote follows the counted span). -/
theorem strScan_le (q : Char) :
    ∀ (l : List Char) (v : String) (cnt : Nat),
      strScan q l = some (v, cnt) → cnt + 1 ≤ l.length := by
  have main : ∀ (n : Nat) (l : List Char), l.length ≤ n →
      ∀ (v : String) (cnt : Nat), strScan q l = some (v, cnt) → cnt + 1 ≤ l.length := by
    intro n
    induction n with
    | zero =>
        intro l hl v cnt h
        cases l with
        | nil => exact absurd h (by simp [strScan])
        | cons c t => exact absurd hl (Nat.not_succ_le_zero _)
    | succ m ihm =>
        intro l hl v cnt h
        cases l with
        | nil => exact absurd h (by simp [strScan])
        | cons c t =>
            simp only [List.length_cons] at hl
            cases t with
            | nil =>
                by_cases hq : c = q
                · simp only [strScan, if_pos hq] at h
                  injection h with h
                  injection h with _ h2
                  simp [← h2]
                · simp only [strScan, if_neg hq] at h
                  exact absurd h (by simp)
            | cons e t2 =>
                simp only [List.length_cons] at hl
                by_cases hq : c = q
                · simp only [strScan, if_pos hq] at h
                  injection h with h
                  injection h with _ h2
                  simp [← h2]
                · by_cases hesc : c = '\\'
                  · simp only [strScan, if_neg hq, if_pos hesc] at h
                    obtain ⟨⟨v1, k⟩, hrec, hmap⟩ := Option.map_eq_some'.mp h
                    have hk := ihm t2 (by omega) v1 k hrec
                    injection hmap with _ h2
                    simp only [List.length_cons, ← h2]
                    omega
                  · simp only [strScan, if_neg hq, if_neg hesc] at h
                    obtain ⟨⟨v1, k⟩, hrec, hmap⟩ := Option.map_eq_some'.mp h
                    have hk := ihm (e :: t2)
                      (by simp only [List.length_cons]; omega) v1 k hrec
                    simp only [List.length_cons] at hk
                    injection hmap with _ h2
                    simp only [List.length_cons, ← h2]
                    omega
  intro l
  exact main l.length l (Nat.le_refl _)

/-- Unfolding the block-comment scanner off the closing pattern. -/
theorem bcCount_cons (c : Char) (t : List Char)
    (h : ¬(c = '*' ∧ ∃ t2, t = '/' :: t2)) : bcCount (c :: t) = bcCount t + 1 := by
  rw [bcCount.eq_def]
  split
  · rename_i heq
    exact absurd heq (by simp)
  · rename_i x tl heq
    injection heq with h1 h2
    exact absurd ⟨h1, tl, h2⟩ h
  · rename_i tv hne heq
    injection heq with _ h2
    rw [h2]

/-- The block-comment scanner consumes at most the remaining input. -/
theorem bcCount_le : ∀ l : List Char, bcCount l ≤ l.length := by
  have main : ∀ (n : Nat) (l : List Char), l.length ≤ n → bcCount l ≤ l.length := by
    intro n
    induction n with
    | zero =>
        intro l hl
        cases l with
        | nil => simp [bcCount]
        | cons c t => exact absurd hl (Nat.not_succ_le_zero _)
    | succ m ihm =>
        intro l hl
        cases l with
        | nil => simp [bcCount]
        | cons c t =>
            simp only [List.length_cons] at hl
            have ht := ihm t (by omega)
            by_cases hc : c = '*'
            · cases t with
              | nil =>
                  subst hc
                  simp [bcCount]
              | cons d t2 =>
                  by_cases hd : d = '/'
                  · subst hc; subst hd
                    simp only [bcCount, List.length_cons]
                    omega
                  · rw [bcCount_cons c (d :: t2) (by
                      rintro ⟨_, t3, ht3⟩
                      injection ht3 with h1 _
                      exact hd h1)]
                    simp only [List.length_cons] at ht ⊢
                    omega
            · rw [bcCount_cons c t (by rintro ⟨hcc, _⟩; exact hc hcc)]
              simp only [List.length_cons] at ht ⊢
              omega
  intro l
  exact main l.length l (Nat.le_refl _)

/-- The fraction stage stays within the remaining input. -/
theorem rncFrac_le (l : List Char) (n1 : Nat) (h : n1 ≤ l.length) :
    rncFrac l n1 ≤ l.length := by
  rw [rncFrac.eq_def]
  split
  · rename_i d tl heq
    have hlen : (l.drop n1).length = l.length - n1 := List.length_drop ..
    rw [heq] at hlen
    simp only [List.length_cons] at hlen
    have hc := countWhile_le isDigitJS (l.drop (n1 + 1))
    have hlen2 : (l.drop (n1 + 1)).length = l.length - (n1 + 1) := List.length_drop ..
    split
    · omega
    · exact h
  · exact h

/-- The exponent stage stays within the remaining input. -/
theorem rncExp_le (l : List Char) (n2 : Nat) (h : n2 ≤ l.length) :
    rncExp l n2 ≤ l.length := by
  rw [rncExp.eq_def]
  split
  · rename_i e r3 heq
    have hlen : (l.drop n2).length = l.length - n2 := List.length_drop ..
    rw [heq] at hlen
    simp only [List.length_cons] at hlen
    split
    · cases r3 with
      | nil =>
          simp only [countWhile, List.drop_nil, List.length_nil] at hlen ⊢
          omega
      | cons c r4 =>
          simp only [List.length_cons] at hlen
          by_cases hsgn : c = '+' ∨ c = '-'
          · simp only [hsgn, if_true, List.drop_succ_cons, List.drop_zero]
            have hc := countWhile_le isDigitJS r4
            omega
          · simp only [hsgn, if_false, List.drop_zero]
            have hc := countWhile_le isDigitJS (c :: r4)
            simp only [List.length_cons] at hc
            omega
    · exact h
  · exact h

/-- `readNumber` consumes at most the remaining input. -/
theorem readNumberCount_le (l : List Char) : readNumberCount l ≤ l.length :=
  rncExp_le l _ (rncFrac_le l _ (countWhile_le isDigitJS l))

/-- Unfolding the span concatenation over a first piece. -/
theorem piecesJoin_cons (s : List Char) (p : Piece) (ps : List Piece) :
    piecesJoin s (p :: ps) = pieceSlice s p ++ piecesJoin s ps := by
  simp [piecesJoin]

/-- A span of the input, rebased to the remaining input at its start. -/
theorem pieceSlice_rebase (s : List Char) (kd : PieceKind) (i j : Nat) :
    pieceSlice s ⟨kd, i, j⟩ = (s.drop i).take (j - i) := by
  simp only [pieceSlice]
  rw [List.drop_take]

/-- A successful index read splits the remaining input at its position. -/
theorem get?_some_split (l : List Char) (n : Nat) (c : Char)
    (h : l.get? n = some c) : n < l.length ∧ l.drop n = c :: l.drop (n + 1) := by
  rw [List.get?_eq_getElem?] at h
  have hn : n < l.length := by
    by_contra hc
    rw [List.getElem?_eq_none (by omega)] at h
    exact Option.noConfusion h
  have hv : l[n] = c := by
    rw [List.getElem?_eq_getElem hn] at h
    injection h
  refine ⟨hn, ?_⟩
  rw [List.drop_eq_getElem_cons hn, hv]

/-- The whitespace run a tokenize iteration discards is discardable. -/
theorem gapOk_ws (s : List Char) (i : Nat) :
    gapOk s ⟨PieceKind.pws, i, i + countWhile isSpaceJS (s.drop i)⟩ := by
  simp only [gapOk]
  intro c hc
  rw [pieceSlice_rebase] at hc
  rw [show i + countWhile isSpaceJS (s.drop i) - i = countWhile isSpaceJS (s.drop i)
    from by omega] at hc
  exact countWhile_sat _ _ c hc

/-- The span a line-comment skip discards starts with `//`. -/
theorem gapOk_lc (s : List Char) (j : Nat)
    (h1 : s.get? j = some '/') (h2 : s.get? (j + 1) = some '/') :
    gapOk s ⟨PieceKind.plc, j, j + countWhile (fun ch => !(ch = '\n')) (s.drop j)⟩ := by
  obtain ⟨hj, hdj⟩ := get?_some_split s j _ h1
  obtain ⟨hj1, hdj1⟩ := get?_some_split s (j + 1) _ h2
  simp only [gapOk]
  rw [pieceSlice_rebase]
  rw [show j + countWhile (fun ch => !(ch = '\n')) (s.drop j) - j =
    countWhile (fun ch => !(ch = '\n')) (s.drop j) from by omega]
  rw [List.take_take]
  rw [hdj, hdj1]
  rw [show countWhile (fun ch => !(ch = '\n')) ('/' :: '/' :: s.drop (j + 1 + 1)) =
    countWhile (fun ch => !(ch = '\n')) (s.drop (j + 1 + 1)) + 1 + 1 from by
      simp [countWhile]]
  rw [show min 2 (countWhile (fun ch => !(ch = '\n')) (s.drop (j + 1 + 1)) + 1 + 1) = 2
    from by omega]
  rfl

/-- The span a block-comment skip discards starts with `/*`. -/
theorem gapOk_bc (s : List Char) (j : Nat)
    (h1 : s.get? j = some '/') (h2 : s.get? (j + 1) = some '*') :
    gapOk s ⟨PieceKind.pbc, j, j + 2 + bcCount (s.drop (j + 2))⟩ := by
  obtain ⟨hj, hdj⟩ := get?_some_split s j _ h1
  obtain ⟨hj1, hdj1⟩ := get?_some_split s (j + 1) _ h2
  simp only [gapOk]
  rw [pieceSlice_rebase]
  rw [show j + 2 + bcCount (s.drop (j + 2)) - j = bcCount (s.drop (j + 2)) + 2
    from by omega]
  rw [List.take_take]
  rw [show min 2 (bcCount (s.drop (j + 2)) + 2) = 2 from by omega]
  rw [hdj, hdj1]
  rfl

/-- One tokenize iteration preserves the tiling invariant: if every
continuation of the loop tiles the input from its start position, the
iteration tiles it from `i` — the discarded whitespace, the consumed
token or comment, and the rest are contiguous spans. -/
theorem lexStep_tiles (s : List Char) (rec : Nat → Option (List Piece))
    (hrec : ∀ (k : Nat) (qs : List Piece), k ≤ s.length → rec k = some qs →
      piecesJoin s qs = s.drop k ∧ ∀ p ∈ qs, gapOk s p) :
    ∀ (i : Nat) (ps : List Piece), i ≤ s.length → lexStep s rec i = some ps →
      piecesJoin s ps = s.drop i ∧ ∀ p ∈ ps, gapOk s p := by
  intro i ps hi h
  unfold lexStep at h
  by_cases h0 : i ≥ s.length
  · rw [if_pos h0] at h
    injection h with h
    subst h
    constructor
    · rw [show piecesJoin s [] = [] from rfl, List.drop_eq_nil_of_le h0]
    · intro p hp
      exact absurd hp (List.not_mem_nil p)
  · rw [if_neg h0] at h
    dsimp only [] at h
    set j := i + countWhile isSpaceJS (s.drop i) with hjdef
    have hij : i ≤ j := by omega
    have hjn : j ≤ s.length := by
      have hcw := countWhile_le isSpaceJS (s.drop i)
      have hld : (s.drop i).length = s.length - i := List.length_drop ..
      omega
    have hdropj : (s.drop j).length = s.length - j := List.length_drop ..
    have hwsgap : gapOk s ⟨PieceKind.pws, i, j⟩ := by
      rw [hjdef]; exact gapOk_ws s i
    have hwsjoin : ∀ (k : Nat) (qs : List Piece) (kd : PieceKind), j ≤ k →
        k ≤ s.length → piecesJoin s qs = s.drop k →
        piecesJoin s (⟨PieceKind.pws, i, j⟩ :: ⟨kd, j, k⟩ :: qs) = s.drop i := by
      intro k qs kd hjk hkn hq
      rw [piecesJoin_cons, piecesJoin_cons, hq]
      rw [show pieceSlice s ⟨kd, j, k⟩ = (s.take k).drop j from rfl]
      rw [show pieceSlice s ⟨PieceKind.pws, i, j⟩ = (s.take j).drop i from rfl]
      rw [slice_append_drop s j k hjk hkn, slice_append_drop s i j hij hjn]
    split at h
    · rename_i hjge
      injection h with h
      subst h
      constructor
      · rw [piecesJoin_cons, show piecesJoin s [] = [] from rfl, List.append_nil]
        rw [show pieceSlice s ⟨PieceKind.pws, i, j⟩ = (s.take j).drop i from rfl]
        rw [show j = s.length from by omega, List.take_length]
      · intro p hp
        simp only [List.mem_singleton] at hp
        subst hp
        exact hwsgap
    · rename_i hjlt0
      have hjlt : j < s.length := by omega
      split at h
      · exact Option.noConfusion h
      · rename_i c hget
        split at h
        · -- identifier / keyword
          rename_i hletter
          obtain ⟨ps1, hr, rfl⟩ := Option.map_eq_some'.mp h
          have hkn : j + countWhile isAlphaNumericJS (s.drop j) ≤ s.length := by
            have := countWhile_le isAlphaNumericJS (s.drop j)
            omega
          obtain ⟨hjoin, hgap⟩ := hrec _ ps1 hkn hr
          constructor
          · refine hwsjoin _ ps1 _ (by omega) hkn hjoin
          · intro p hp
            simp only [List.mem_cons] at hp
            rcases hp with rfl | rfl | hp
            · exact hwsgap
            · trivial
            · exact hgap p hp
        · split at h
          · -- number
            rename_i hdigit
            obtain ⟨ps1, hr, rfl⟩ := Option.map_eq_some'.mp h
            have hkn : j + readNumberCount (s.drop j) ≤ s.length := by
              have := readNumberCount_le (s.drop j)
              omega
            obtain ⟨hjoin, hgap⟩ := hrec _ ps1 hkn hr
            constructor
            · refine hwsjoin _ ps1 _ (by omega) hkn hjoin
            · intro p hp
              simp only [List.mem_cons] at hp
              rcases hp with rfl | rfl | hp
              · exact hwsgap
              · trivial
              · exact hgap p hp
          · split at h
            · -- string
              rename_i hquote
              split at h
              · exact Option.noConfusion h
              · rename_i r hss
                obtain ⟨v1, cnt1⟩ := r
                obtain ⟨ps1, hr, rfl⟩ := Option.map_eq_some'.mp h
                have hcnt := strScan_le c (s.drop (j + 1)) v1 cnt1 hss
                have hd1 : (s.drop (j + 1)).length = s.length - (j + 1) :=
                  List.length_drop ..
                have hkn : j + cnt1 + 2 ≤ s.length := by omega
                obtain ⟨hjoin, hgap⟩ := hrec _ ps1 hkn hr
                constructor
                · refine hwsjoin _ ps1 _ (by omega) hkn hjoin
                · intro p hp
                  simp only [List.mem_cons] at hp
                  rcases hp with rfl | rfl | hp
                  · exact hwsgap
                  · trivial
                  · exact hgap p hp
            · split at h
              · -- line comment
                rename_i hlc
                obtain ⟨hc7, hc8⟩ := hlc
                subst hc7
                obtain ⟨ps1, hr, rfl⟩ := Option.map_eq_some'.mp h
                have hkn : j + countWhile (fun ch => !(ch = '\n')) (s.drop j) ≤
                    s.length := by
                  have := countWhile_le (fun ch => !(ch = '\n')) (s.drop j)
                  omega
                obtain ⟨hjoin, hgap⟩ := hrec _ ps1 hkn hr
                constructor
                · refine hwsjoin _ ps1 _ (by omega) hkn hjoin
                · intro p hp
                  simp only [List.mem_cons] at hp
                  rcases hp with rfl | rfl | hp
                  · exact hwsgap
                  · exact gapOk_lc s j hget hc8
                  · exact hgap p hp
              · split at h
                · -- block comment
                  rename_i hbc
                  obtain ⟨hc7, hc8⟩ := hbc
                  subst hc7
                  obtain ⟨ps1, hr, rfl⟩ := Option.map_eq_some'.mp h
                  obtain ⟨hj1lt, _⟩ := get?_some_split s (j + 1) _ hc8
                  have hbcle := bcCount_le (s.drop (j + 2))
                  have hd2 : (s.drop (j + 2)).length = s.length - (j + 2) :=
                    List.length_drop ..
                  have hkn : j + 2 + bcCount (s.drop (j + 2)) ≤ s.length := by omega
                  obtain ⟨hjoin, hgap⟩ := hrec _ ps1 hkn hr
                  constructor
                  · refine hwsjoin _ ps1 _ (by omega) hkn hjoin
                  · intro p hp
                    simp only [List.mem_cons] at hp
                    rcases hp with rfl | rfl | hp
                    · exact hwsgap
                    · exact gapOk_bc s j hget hc8
                    · exact hgap p hp
                · -- operator
                  split at h
                  · rename_i d hd2
                    obtain ⟨hj1lt, _⟩ := get?_some_split s (j + 1) _ hd2
                    split at h
                    · rename_i ty hty
                      obtain ⟨ps1, hr, rfl⟩ := Option.map_eq_some'.mp h
                      have hkn : j + 2 ≤ s.length := by omega
                      obtain ⟨hjoin, hgap⟩ := hrec _ ps1 hkn hr
                      constructor
                      · refine hwsjoin _ ps1 _ (by omega) hkn hjoin
                      · intro p hp
                        simp only [List.mem_cons] at hp
                        rcases hp with rfl | rfl | hp
                        · exact hwsgap
                        · trivial
                        · exact hgap p hp
                    · split at h
                      · rename_i ty hty
                        obtain ⟨ps1, hr, rfl⟩ := Option.map_eq_some'.mp h
                        have hkn : j + 1 ≤ s.length := by omega
                        obtain ⟨hjoin, hgap⟩ := hrec _ ps1 hkn hr
                        constructor
                        · refine hwsjoin _ ps1 _ (by omega) hkn hjoin
                        · intro p hp
                          simp only [List.mem_cons] at hp
                          rcases hp with rfl | rfl | hp
                          · exact hwsgap
                          · trivial
                          · exact hgap p hp
                      · exact Option.noConfusion h
                  · split at h
                    · rename_i ty hty
                      obtain ⟨ps1, hr, rfl⟩ := Option.map_eq_some'.mp h
                      have hkn : j + 1 ≤ s.length := by omega
                      obtain ⟨hjoin, hgap⟩ := hrec _ ps1 hkn hr
                      constructor
                      · refine hwsjoin _ ps1 _ (by omega) hkn hjoin
                      · intro p hp
                        simp only [List.mem_cons] at hp
                        rcases hp with rfl | rfl | hp
                        · exact hwsgap
                        · trivial
                        · exact hgap p hp
                    · exact Option.noConfusion h

/-- The tokenize loop tiles the input from its start position, for any
fuel that lets it finish. -/
theorem lexLoop_tiles (s : List Char) :
    ∀ (fuel i : Nat) (ps : List Piece), i ≤ s.length →
      lexLoop s fuel i = some ps →
      piecesJoin s ps = s.drop i ∧ ∀ p ∈ ps, gapOk s p := by
  intro fuel
  induction fuel with
  | zero => intro i ps _ h; exact Option.noConfusion h
  | succ n ih => intro i ps hi h; exact lexStep_tiles s (lexLoop s n) ih i ps hi h

/-- C7: any token sequence the lexer produces tiles the source: the run
records one piece per token and per discarded whitespace/comment span, the
pieces' spans concatenate (in order, without loss or duplication) back to
the entire input, the produced tokens are exactly the token pieces followed
by the EOF marker, and every non-token piece is discardable text. -/
theorem c7_lexer_token_boundaries_reconstruct (s : List Char) (ts : List Token)
    (h : tokenize s = some ts) :
    ∃ ps, lexPieces s = some ps ∧ ts = tokensOf ps ++ [eofToken s] ∧
      piecesJoin s ps = s ∧ ∀ p ∈ ps, gapOk s p := by
  unfold tokenize at h
  obtain ⟨ps, hps, hts⟩ := Option.map_eq_some'.mp h
  obtain ⟨hjoin, hgap⟩ := lexLoop_tiles s (s.length + 1) 0 ps (Nat.zero_le _) hps
  rw [List.drop_zero] at hjoin
  exact ⟨ps, hps, hts.symm, hjoin, hgap⟩

/-- C7 witness: the reconstruction statement at the concrete source
`let x = 1 // end`. -/
theorem c7_lexer_token_boundaries_reconstruct_witness :
    ∃ ps, lexPieces (("let x = 1 // end").toList) = some ps ∧
      [{ type := ("LET"), value := TValue.tvStr ("let"), line := 1, column := 1 },
       { type := ("IDENTIFIER"), value := TValue.tvStr ("x"), line := 1, column := 5 },
       { type := ("ASSIGN"), value := TValue.tvStr ("="), line := 1, column := 7 },
       { type := ("NUMBER"), value := TValue.tvNum (JSNum.num 1), line := 1, column := 9 },
       { type := ("EOF"), value := TValue.tvNull, line := 1, column := 17 }] =
        tokensOf ps ++ [eofToken (("let x = 1 // end").toList)] ∧
      piecesJoin (("let x = 1 // end").toList) ps = ("let x = 1 // end").toList ∧
      ∀ p ∈ ps, gapOk (("let x = 1 // end").toList) p :=
  c7_lexer_token_boundaries_reconstruct (("let x = 1 // end").toList) _
    (by with_unfolding_all rfl)

/-- C10: after the for statement's end expression, an identifier token
whose text is not `step` is consumed and silently dropped — the parse
succeeds with the default literal-1 step — while the identifier text
`step` makes the following expression the loop's step. -/
theorem c10_non_step_identifier_discarded (w : String) (hw : w ≠ "step") :
    parse (c10Tokens w) 30 =
      PRes.pok (Node.program [Node.forStmt ("i") (Node.lit (LitV.lnum (JSNum.num 1)))
        (Node.lit (LitV.lnum (JSNum.num 2))) (Node.lit (LitV.lnum (JSNum.num 1))) []]) 9 ∧
    parse c10StepTokens 30 =
      PRes.pok (Node.program [Node.forStmt ("i") (Node.lit (LitV.lnum (JSNum.num 1)))
        (Node.lit (LitV.lnum (JSNum.num 2))) (Node.lit (LitV.lnum (JSNum.num 5))) []]) 10 := by
  constructor
  · have hstep : pStepClause (c10Tokens w) (parseExpr (c10Tokens w) 28) 6 =
        PRes.pok (Node.lit (LitV.lnum (JSNum.num 1))) 7 := if_neg hw
    have hfor : pForStatement (c10Tokens w) (parseExpr (c10Tokens w) 28)
        (parseStatement (c10Tokens w) 28) 28 1 =
        PRes.pok (Node.forStmt ("i") (Node.lit (LitV.lnum (JSNum.num 1)))
          (Node.lit (LitV.lnum (JSNum.num 2))) (Node.lit (LitV.lnum (JSNum.num 1))) []) 9 := by
      simp only [pForStatement,
        show pConsume (c10Tokens w) 1 ("IDENTIFIER") =
          PRes.pok (tkn ("IDENTIFIER") (TValue.tvStr ("i"))) 2 from rfl,
        show pConsume (c10Tokens w) 2 ("ASSIGN") =
          PRes.pok (tkn ("ASSIGN") (TValue.tvStr ("="))) 3 from rfl,
        show parseExpr (c10Tokens w) 28 3 =
          PRes.pok (Node.lit (LitV.lnum (JSNum.num 1))) 4 from rfl,
        show pConsume (c10Tokens w) 4 ("TO") =
          PRes.pok (tkn ("TO") (TValue.tvStr ("to"))) 5 from rfl,
        show parseExpr (c10Tokens w) 28 5 =
          PRes.pok (Node.lit (LitV.lnum (JSNum.num 2))) 6 from rfl,
        hstep,
        show pConsume (c10Tokens w) 7 ("LBRACE") =
          PRes.pok (tkn ("LBRACE") (TValue.tvStr ("\x7b"))) 8 from rfl,
        show pBlockLoop (c10Tokens w) (parseStatement (c10Tokens w) 28) 28 8 [] =
          PRes.pok [] 9 from rfl,
        show tokStr (tkn ("IDENTIFIER") (TValue.tvStr ("i"))) = "i" from rfl]
    have hstmt : parseStatement (c10Tokens w) 29 0 =
        PRes.pok (Node.forStmt ("i") (Node.lit (LitV.lnum (JSNum.num 1)))
          (Node.lit (LitV.lnum (JSNum.num 2))) (Node.lit (LitV.lnum (JSNum.num 1))) []) 9 :=
      hfor
    have hunf : parseProgramLoop (c10Tokens w) 30 0 [] =
        (match parseStatement (c10Tokens w) 29 0 with
         | PRes.pok s pos1 => parseProgramLoop (c10Tokens w) 29 pos1 ([] ++ [s])
         | PRes.perr m => PRes.perr m
         | PRes.pout => PRes.pout) := rfl
    have hloop : parseProgramLoop (c10Tokens w) 30 0 [] =
        PRes.pok [Node.forStmt ("i") (Node.lit (LitV.lnum (JSNum.num 1)))
          (Node.lit (LitV.lnum (JSNum.num 2))) (Node.lit (LitV.lnum (JSNum.num 1))) []] 9 := by
      rw [hunf, hstmt]
      rfl
    simp only [parse, hloop]
  · with_unfolding_all rfl

/-- C10 witness: the statement at the identifier text `foo`. -/
theorem c10_non_step_identifier_discarded_witness :
    ("foo" ≠ ("step" : String)) ∧
    (parse (c10Tokens ("foo")) 30 =
      PRes.pok (Node.program [Node.forStmt ("i") (Node.lit (LitV.lnum (JSNum.num 1)))
        (Node.lit (LitV.lnum (JSNum.num 2))) (Node.lit (LitV.lnum (JSNum.num 1))) []]) 9 ∧
    parse c10StepTokens 30 =
      PRes.pok (Node.program [Node.forStmt ("i") (Node.lit (LitV.lnum (JSNum.num 1)))
        (Node.lit (LitV.lnum (JSNum.num 2))) (Node.lit (LitV.lnum (JSNum.num 5))) []]) 10) :=
  ⟨by decide, c10_non_step_identifier_discarded ("foo") (by decide)⟩

/-- C6 witness: the amended statement at the concrete list `[t0 = 2 + 3]`. -/
theorem c6_all_literal_arith_folds_to_assigns_witness :
    (∀ i ∈ [litPlusInstr], i.op ∈ arithOps ∧
      (∃ a, i.arg1 = Arg.anum a) ∧ (∃ b, i.arg2 = Arg.anum b)) ∧
    constantFolding [litPlusInstr] = [litPlusInstr].map foldedAssign := by
  have h : ∀ i ∈ [litPlusInstr], i.op ∈ arithOps ∧
      (∃ a, i.arg1 = Arg.anum a) ∧ (∃ b, i.arg2 = Arg.anum b) := by
    intro i hi
    rw [List.mem_singleton] at hi
    subst hi
    exact ⟨by decide, ⟨JSNum.num 2, rfl⟩, ⟨JSNum.num 3, rfl⟩⟩
  exact ⟨h, c6_all_literal_arith_folds_to_assigns [litPlusInstr] h⟩

end Lumos
